import Mathlib

set_option maxRecDepth 8000

/-!
Shallow embedding of three OpenThread subsystems and theorems checking the
natural language specification of the repository against them:

* the Thread Network Data query engine (TLV walk, external route and
  on mesh iteration, RLOC enumeration, DNS/SRP anycast selection),
* the DHCPv6 client (dhcp6_client.cpp),
* the indirect transmission subsystem (indirect_sender.cpp).

The Network Data implementation itself is not part of the source tree that
was provided (only its unit test, test_network_data.cpp, is); those
definitions are modelled from the specification and are pinned down by the
expected values of the unit test, which this file reproduces from the raw
byte buffers.  The DHCPv6 client and the indirect sender are embedded from
their C++ sources.  Machine integers are modelled as Nat with explicit
reductions modulo 256 or 65536 where the code relies on wrap around.
-/

namespace NetData

/-- Modelled from the spec: the first byte of a Network Data TLV header packs
the TLV type in its upper seven bits (network_data_tlvs.hpp is absent from
the provided sources, only its unit test is present). -/
def tlvType (b : Nat) : Nat := b / 2 % 128

/-- Modelled from the spec: the stable flag is the lowest bit of the first
TLV header byte. -/
def tlvStable (b : Nat) : Bool := b % 2 == 1

/-- Big endian 16 bit value from two bytes. -/
def be16 (a b : Nat) : Nat := a % 256 * 256 + b % 256

/-- Fuelled worker of the TLV walk; the fuel only bounds the recursion depth
(every step consumes at least the two header bytes, so the buffer length is
always enough fuel). -/
def parseTlvsFuel : Nat → List Nat → List (Nat × List Nat)
  | _, [] => []
  | _, [_] => []
  | 0, _ :: _ :: _ => []
  | fuel + 1, b0 :: b1 :: rest =>
    if b1 ≤ rest.length then (b0, rest.take b1) :: parseTlvsFuel fuel (rest.drop b1) else []

/-- Modelled from the spec: walk of a TLV sequence.  Each element is the
first header byte paired with the value slice of the declared length.  The
walk stops when fewer than two header bytes remain, or when the declared
length exceeds the remaining buffer. -/
def parseTlvs (l : List Nat) : List (Nat × List Nat) := parseTlvsFuel l.length l

/-- Number of prefix bytes occupied by a prefix of the given bit length. -/
def pfxByteCount (plen : Nat) : Nat := (plen + 7) / 8

/-- Modelled from the spec: decoding of the two bit route or border router
preference field, clamping the reserved pattern 2 to medium. -/
def prefFrom2Bit (v : Nat) : Int :=
  match v % 4 with
  | 1 => 1
  | 3 => -1
  | _ => 0

/-- Flag bit test: bit i of flags value f. -/
def bitAt (f i : Nat) : Bool := f / 2 ^ i % 2 == 1

/-- External route entry as produced by the route iterator
(otExternalRouteConfig). -/
structure RouteCfg where
  pfx : List Nat
  pfxLen : Nat
  rloc16 : Nat
  preference : Int
  nat64 : Bool
  advPio : Bool
  stable : Bool
deriving DecidableEq

/-- Modelled from the spec: the Has Route entries of a single Prefix TLV
value.  A malformed Prefix TLV (declared prefix length above 128, value too
short for the prefix bytes, or missing header fields) yields no entries.
Each Has Route sub TLV holds a run of three byte entries; a trailing
incomplete entry is ignored. -/
def hasRouteEntries : List Nat → List (Nat × Nat)
  | r1 :: r2 :: f :: rest => (be16 r1 r2, f) :: hasRouteEntries rest
  | _ => []

/-- Modelled from the spec: routes contributed by one Prefix TLV value. -/
def prefixTlvRoutes (v : List Nat) : List RouteCfg :=
  match v with
  | _ :: plen :: rest =>
    if plen ≤ 128 ∧ pfxByteCount plen ≤ rest.length then
      (parseTlvs (rest.drop (pfxByteCount plen))).flatMap (fun sub =>
        if tlvType sub.1 == 0 then
          (hasRouteEntries sub.2).map (fun e =>
            { pfx := rest.take (pfxByteCount plen)
              pfxLen := plen
              rloc16 := e.1
              preference := prefFrom2Bit (e.2 / 64)
              nat64 := bitAt e.2 5
              advPio := bitAt e.2 4
              stable := tlvStable sub.1 })
        else [])
    else []
  | _ => []

/-- Modelled from the spec: GetNextExternalRoute exhausted into the list of
all entries it emits in buffer order.  Unknown top level TLV types are
skipped using their declared length; malformed Prefix TLVs contribute no
entries but the walk continues past them. -/
def externalRouteList (buf : List Nat) : List RouteCfg :=
  (parseTlvs buf).flatMap (fun t => if tlvType t.1 == 1 then prefixTlvRoutes t.2 else [])

/-- On mesh entry as produced by the on mesh iterator (otBorderRouterConfig). -/
structure OnMeshCfg where
  pfx : List Nat
  pfxLen : Nat
  rloc16 : Nat
  preference : Int
  preferredFlag : Bool
  slaac : Bool
  dhcp : Bool
  configure : Bool
  defaultRoute : Bool
  onMesh : Bool
  ndDns : Bool
  dp : Bool
  stable : Bool
deriving DecidableEq

/-- Modelled from the spec: the four byte Border Router entries (RLOC16 and
sixteen bit flags) of a Border Router sub TLV value. -/
def borderRouterEntries : List Nat → List (Nat × Nat)
  | r1 :: r2 :: f1 :: f2 :: rest => (be16 r1 r2, be16 f1 f2) :: borderRouterEntries rest
  | _ => []

/-- Modelled from the spec: on mesh entries contributed by one Prefix TLV
value, one entry per Border Router entry whose flags decode to on mesh. -/
def prefixTlvOnMesh (v : List Nat) : List OnMeshCfg :=
  match v with
  | _ :: plen :: rest =>
    if plen ≤ 128 ∧ pfxByteCount plen ≤ rest.length then
      (parseTlvs (rest.drop (pfxByteCount plen))).flatMap (fun sub =>
        if tlvType sub.1 == 2 then
          (borderRouterEntries sub.2).filterMap (fun e =>
            if bitAt e.2 8 then
              some { pfx := rest.take (pfxByteCount plen)
                     pfxLen := plen
                     rloc16 := e.1
                     preference := prefFrom2Bit (e.2 / 2 ^ 14)
                     preferredFlag := bitAt e.2 13
                     slaac := bitAt e.2 12
                     dhcp := bitAt e.2 11
                     configure := bitAt e.2 10
                     defaultRoute := bitAt e.2 9
                     onMesh := bitAt e.2 8
                     ndDns := bitAt e.2 7
                     dp := bitAt e.2 6
                     stable := tlvStable sub.1 }
            else none)
        else [])
    else []
  | _ => []

/-- Modelled from the spec: GetNextOnMeshPrefix exhausted into the list of
all entries it emits in buffer order. -/
def onMeshList (buf : List Nat) : List OnMeshCfg :=
  (parseTlvs buf).flatMap (fun t => if tlvType t.1 == 1 then prefixTlvOnMesh t.2 else [])

/-- Modelled from the spec: decomposition of a Service TLV value into the
thread enterprise marker, the service data and the sub TLV slice.  The first
value byte packs the T bit (bit 7) and the service id; with T clear a four
byte enterprise number follows; the service data length byte precedes the
service data. -/
def serviceTlvBody (v : List Nat) : Option (Bool × List Nat × List Nat) :=
  match v with
  | b0 :: rest =>
    if b0 ≥ 128 then
      match rest with
      | sdlen :: rest2 =>
        if sdlen ≤ rest2.length then some (true, rest2.take sdlen, rest2.drop sdlen) else none
      | _ => none
    else
      match rest with
      | e1 :: e2 :: e3 :: e4 :: sdlen :: rest2 =>
        if sdlen ≤ rest2.length then
          some (be16 e1 e2 * 65536 + be16 e3 e4 == 44970, rest2.take sdlen, rest2.drop sdlen)
        else none
      | _ => none
  | _ => none

/-- Modelled from the spec: the server RLOC16 values of the Server sub TLVs
of one Service TLV value; Server sub TLVs shorter than the two RLOC bytes
are skipped. -/
def serverRlocsOfBody (subs : List Nat) : List Nat :=
  (parseTlvs subs).flatMap (fun sub =>
    if tlvType sub.1 == 6 then
      match sub.2 with
      | r1 :: r2 :: _ => [be16 r1 r2]
      | _ => []
    else [])

/-- Modelled from the spec: all server RLOC16 values of all valid Service
TLVs of the buffer, in buffer order. -/
def serverRlocList (buf : List Nat) : List Nat :=
  (parseTlvs buf).flatMap (fun t =>
    if tlvType t.1 == 5 then
      match serviceTlvBody t.2 with
      | some b => serverRlocsOfBody b.2.2
      | none => []
    else [])

/-- DNS/SRP anycast entry information (Service::DnsSrpAnycastInfo): sequence
number, version and server RLOC16. -/
structure AnycastInfo where
  seqNum : Nat
  version : Nat
  rloc16 : Nat
deriving DecidableEq

/-- Modelled from the spec: the anycast entries of one Service TLV value.
The Service TLV must carry the Thread enterprise number and a service data
of at least two bytes starting with the anycast service number 0x5c; the
second service data byte is the sequence number.  One entry is produced per
Server sub TLV holding at least the two RLOC bytes; the first server data
byte, when present, is the version, otherwise the version is zero. -/
def anycastInfosOfTlv (v : List Nat) : List AnycastInfo :=
  match serviceTlvBody v with
  | some (isThread, sdata, subs) =>
    if isThread then
      match sdata with
      | 0x5c :: seq :: _ =>
        (parseTlvs subs).flatMap (fun sub =>
          if tlvType sub.1 == 6 then
            match sub.2 with
            | r1 :: r2 :: sdRest =>
              [{ seqNum := seq % 256
                 version := match sdRest with | x :: _ => x % 256 | [] => 0
                 rloc16 := be16 r1 r2 }]
            | _ => []
          else [])
      | _ => []
    else []
  | none => []

/-- Modelled from the spec: GetNextDnsSrpAnycastInfo exhausted into the list
of all entries in buffer order. -/
def anycastInfoList (buf : List Nat) : List AnycastInfo :=
  (parseTlvs buf).flatMap (fun t => if tlvType t.1 == 5 then anycastInfosOfTlv t.2 else [])

/-- Serial number arithmetic comparison on eight bit sequence numbers:
a is greater than b when they differ and the wrapped difference has the top
bit clear (SerialNumber::IsGreater). -/
def isGreaterSerial (a b : Nat) : Bool := (a != b) && decide ((a + 256 - b) % 256 < 128)

/-- Scan state of the preferred anycast entry search: the running maximum in
serial number arithmetic and the running maximum in plain numeric order. -/
structure PreferredScan where
  best : AnycastInfo
  maxNum : AnycastInfo
deriving DecidableEq

/-- One scan step of the preferred anycast entry search: each tracker adopts
a strictly greater entry and, on an equal sequence number, lowers its version
to the minimum of the versions seen for that sequence number. -/
def scanStep (s : PreferredScan) (info : AnycastInfo) : PreferredScan :=
  let best :=
    if isGreaterSerial info.seqNum s.best.seqNum then info
    else if info.seqNum == s.best.seqNum then
      { s.best with version := min s.best.version info.version }
    else s.best
  let maxNum :=
    if info.seqNum > s.maxNum.seqNum then info
    else if info.seqNum == s.maxNum.seqNum then
      { s.maxNum with version := min s.maxNum.version info.version }
    else s.maxNum
  ⟨best, maxNum⟩

/-- Modelled from the spec: Manager::FindPreferredDnsSrpAnycastInfo
(network_data_service.cpp is absent from the provided sources).  The entries
are scanned once, tracking the maximum sequence number both in serial number
arithmetic and in plain numeric order, aggregating the minimum version over
entries tied at the tracked sequence number.  When the serial maximum is, in
serial arithmetic, greater than every other distinct candidate it is
returned; otherwise the sequence numbers are partitioned in the circular
space and the numeric maximum is returned instead.  The behaviour, including
the minimum version aggregation and the numeric fallback, is pinned down by
the fifteen cases of TestNetworkDataDsnSrpAnycastSeqNumSelection, which the
theorems below replay from the raw buffers. -/
def findPreferredAnycastInfo (entries : List AnycastInfo) : Option AnycastInfo :=
  match entries with
  | [] => none
  | e :: rest =>
    let s := rest.foldl scanStep ⟨e, e⟩
    if entries.all (fun i => i.seqNum == s.best.seqNum || isGreaterSerial s.best.seqNum i.seqNum)
    then some s.best
    else some s.maxNum

/-- Border router filter of FindRlocs. -/
inductive BrFilter where
  | anyBrOrServer
  | brProvidingExternalIpConn
deriving DecidableEq

/-- Role filter of FindRlocs. -/
inductive RoleFilter where
  | anyRole
  | routerRoleOnly
  | childRoleOnly
deriving DecidableEq

/-- An RLOC16 is a router address exactly when its low nine bits are zero. -/
def isRouterRloc (r : Nat) : Bool := r % 512 == 0

/-- Role filter test on an RLOC16. -/
def roleMatches : RoleFilter → Nat → Bool
  | .anyRole, _ => true
  | .routerRoleOnly, r => isRouterRloc r
  | .childRoleOnly, r => !isRouterRloc r

/-- Modelled from the spec: AddRloc16ToRlocs appends an RLOC16 matching the
role filter unless already present. -/
def addRloc (role : RoleFilter) (acc : List Nat) (r : Nat) : List Nat :=
  if roleMatches role r && !acc.contains r then acc ++ [r] else acc

/-- Modelled from the spec: the raw candidate RLOC16 values gathered by
FindRlocs before role filtering and deduplication: the border router
entries of on mesh prefixes (restricted, under the external connectivity
filter, to entries with both default route and on mesh flags or with the
domain prefix flag), then every external route entry, then, under the
any filter only, every server entry. -/
def collectRlocs (buf : List Nat) (f : BrFilter) : List Nat :=
  (onMeshList buf).filterMap (fun c =>
    match f with
    | .anyBrOrServer => some c.rloc16
    | .brProvidingExternalIpConn =>
      if (c.defaultRoute && c.onMesh) || c.dp then some c.rloc16 else none)
  ++ (externalRouteList buf).map (fun r => r.rloc16)
  ++ (match f with
      | .anyBrOrServer => serverRlocList buf
      | .brProvidingExternalIpConn => [])

/-- Modelled from the spec: FindRlocs, the deduplicated role filtered RLOC16
enumeration over a Network Data buffer. -/
def findRlocs (buf : List Nat) (f : BrFilter) (role : RoleFilter) : List Nat :=
  (collectRlocs buf f).foldl (addRloc role) []

/-- Modelled from the spec: ContainsBorderRouterWithRloc checks membership of
the RLOC16 in the external connectivity RLOC enumeration over any role. -/
def containsBorderRouterWithRloc (buf : List Nat) (r : Nat) : Bool :=
  (findRlocs buf .brProvidingExternalIpConn .anyRole).contains r

/-- The circular order stated by the spec, verbatim: A is in front of B when
the wrapped difference A minus B modulo 256 lies in 1..127. -/
def specInFrontOf (a b : Nat) : Bool :=
  decide (1 ≤ (a + 256 - b) % 256 ∧ (a + 256 - b) % 256 ≤ 127)

/-- The set, stated by the spec, of candidate sequence numbers that no other
candidate is in front of. -/
def specHighestSeqSet (seqs : List Nat) : List Nat :=
  seqs.filter (fun s => seqs.all (fun t => !specInFrontOf t s))

/-- First buffer of TestNetworkDataIterator: an unknown top level TLV type,
a Prefix TLV with declared prefix length 129, a Prefix TLV with a one byte
value, a Prefix TLV with no prefix bytes, and a valid Prefix TLV with two
Has Route sub TLVs. -/
def kNetworkDataIter1 : List Nat :=
  [0xff, 0x03, 0x01, 0x02, 0x03,
   0x03, 0x1D, 0x00, 0x81, 0xFD, 0x11, 0x22, 0x33, 0x44, 0x55, 0x66, 0x77, 0x88, 0x99, 0xAA,
   0xBB, 0xCC, 0xDD, 0xEE, 0xFF, 0x00, 0x00, 0x03, 0xb8, 0x00, 0x40, 0x01, 0x03, 0x14, 0x00,
   0x00,
   0x03, 0x01, 0x00,
   0x03, 0x02, 0x00, 0x40,
   0x03, 0x14, 0x00, 0x40, 0xFD, 0x00, 0x12, 0x34, 0x00, 0x00, 0x00, 0x00, 0x00, 0x03, 0xC8,
   0x00, 0x40, 0x01, 0x03, 0x54, 0x00, 0x00]

/-- Second buffer of TestNetworkDataIterator. -/
def kNetworkDataIter2 : List Nat :=
  [0x08, 0x04, 0x0B, 0x02, 0x00, 0x00, 0x03, 0x1E, 0x00, 0x40, 0xFD, 0x00, 0x12, 0x34, 0x56,
   0x78, 0x00, 0x00, 0x07, 0x02, 0x11, 0x40, 0x00, 0x03, 0x10, 0x00, 0x40, 0x01, 0x03, 0x54,
   0x00, 0x00, 0x05, 0x04, 0x54, 0x00, 0x31, 0x00, 0x02, 0x0F, 0x00, 0x40, 0xFD, 0x00, 0xAB,
   0xBA, 0xCD, 0xDC, 0x00, 0x00, 0x00, 0x03, 0x10, 0x00, 0x20, 0x03, 0x0E, 0x00, 0x20, 0xFD,
   0x00, 0xAB, 0xBA, 0x01, 0x06, 0x54, 0x00, 0x00, 0x04, 0x01, 0x00]

/-- Third buffer of TestNetworkDataIterator. -/
def kNetworkDataIter3 : List Nat :=
  [0x08, 0x04, 0x0b, 0x02, 0x36, 0xcc, 0x03, 0x1c, 0x00, 0x40, 0xfd, 0x00, 0xbe, 0xef, 0xca,
   0xfe, 0x00, 0x00, 0x05, 0x0c, 0x28, 0x00, 0x33, 0x00, 0x28, 0x01, 0x33, 0x00, 0x4c, 0x00,
   0x31, 0x00, 0x07, 0x02, 0x11, 0x40, 0x03, 0x14, 0x00, 0x40, 0xfd, 0x00, 0x22, 0x22, 0x00,
   0x00, 0x00, 0x00, 0x05, 0x04, 0x28, 0x00, 0x73, 0x00, 0x07, 0x02, 0x12, 0x40, 0x03, 0x12,
   0x00, 0x40, 0xfd, 0x00, 0x33, 0x33, 0x00, 0x00, 0x00, 0x00, 0x01, 0x06, 0xec, 0x00, 0x00,
   0x28, 0x01, 0xc0]

/-- Buffer of TestNetworkDataDsnSrpServices. -/
def kNetworkDataSrp : List Nat :=
  [0x0b, 0x01, 0x00,
   0x0b, 0x0b, 0x80, 0x02, 0x5c, 0x02, 0x0d, 0x01, 0x00, 0x0d, 0x02, 0x28, 0x00,
   0x0b, 0x09, 0x81, 0x02, 0x5c, 0xff, 0x0d, 0x03, 0x6c, 0x00, 0x05,
   0x0b, 0x09, 0x82, 0x03, 0x5c, 0x03, 0xaa, 0x0d, 0x02, 0x4c, 0x00,
   0x0b, 0x36, 0x83, 0x14, 0x5d, 0xfd, 0xde, 0xad, 0x00, 0xbe, 0xef, 0x00, 0x00, 0x2d,
   0x0e, 0xc6, 0x27, 0x55, 0x56, 0x18, 0xd9, 0x12, 0x34, 0x03, 0x0d, 0x02, 0x00, 0x00,
   0x0d, 0x14, 0x6c, 0x00, 0xfd, 0x00, 0xaa, 0xbb, 0xcc, 0xdd, 0xee, 0xff, 0x00, 0x11,
   0x22, 0x33, 0x44, 0x55, 0x66, 0x77, 0xab, 0xcd, 0x0d, 0x04, 0x28, 0x00, 0x56, 0x78,
   0x0b, 0x24, 0x84, 0x01, 0x5d, 0x0d, 0x02, 0x00, 0x00, 0x0d, 0x15, 0x4c, 0x00, 0xfd,
   0x00, 0x12, 0x34, 0x56, 0x78, 0x9a, 0xbc, 0xde, 0xf0, 0x01, 0x23, 0x45, 0x67, 0x89,
   0xab, 0x00, 0x0e, 0x01, 0x0d, 0x04, 0x6c, 0x00, 0xcd, 0x12,
   0x0b, 0x08, 0x84, 0x01, 0x5c, 0x0d, 0x02, 0x14, 0x01, 0x0d,
   0x0b, 0x07, 0x83, 0x01, 0x5c, 0x0d, 0x02, 0x28, 0x00,
   0x0b, 0x13, 0x83, 0x02, 0x5c, 0xfe, 0x0d, 0x03, 0x12, 0x00, 0x07, 0x0d, 0x03, 0x12,
   0x01, 0x06, 0x0d, 0x03, 0x16, 0x00, 0x07]

/-- The Commissioning Data TLV prefixed to every buffer of
TestNetworkDataDsnSrpAnycastSeqNumSelection. -/
def kCommTlv : List Nat := [0x08, 0x04, 0x0b, 0x02, 0x50, 0xb0]

/-- A single stable Service TLV for the anycast selection tests: service id
byte, anycast service data with the given sequence number, and one Server
sub TLV with the given RLOC16 low byte and no version byte. -/
def anycastTlv (sid seq rlocLo : Nat) : List Nat :=
  [0x0b, 0x08, 0x80 + sid, 0x02, 0x5c, seq, 0x0d, 0x02, 0x50, rlocLo]

/-- Anycast selection test buffers 1 to 15, transcribed from the unit test. -/
def kNetworkData1 : List Nat := kCommTlv ++ anycastTlv 0 0x01 0 ++ anycastTlv 1 0x81 1

def kNetworkData2 : List Nat := kCommTlv ++ anycastTlv 0 0x85 0 ++ anycastTlv 1 0x05 1

def kNetworkData3 : List Nat :=
  kCommTlv ++ anycastTlv 0 0x01 0 ++ anycastTlv 1 0x02 1 ++ anycastTlv 2 0xff 2

def kNetworkData4 : List Nat :=
  kCommTlv ++ anycastTlv 0 0x0a 0 ++ anycastTlv 1 0x82 1 ++ anycastTlv 2 0xfa 2

def kNetworkData5 : List Nat :=
  kCommTlv ++ anycastTlv 0 0x82 0 ++ anycastTlv 1 0xfa 1 ++ anycastTlv 2 0x0a 2

def kNetworkData6 : List Nat :=
  kCommTlv ++ anycastTlv 0 0xfa 0 ++ anycastTlv 1 0x0a 1 ++ anycastTlv 2 0x82 2

def kNetworkData7 : List Nat :=
  kCommTlv ++ anycastTlv 0 0xfa 0 ++ anycastTlv 1 0x0a 1 ++ anycastTlv 2 0x8a 2

def kNetworkData8 : List Nat :=
  kCommTlv ++ anycastTlv 0 0x01 0 ++ anycastTlv 1 0x02 1 ++ anycastTlv 2 0xff 2 ++
  anycastTlv 3 0xfe 3

def kNetworkData9 : List Nat := kNetworkData8

def kNetworkData10 : List Nat :=
  kCommTlv ++ anycastTlv 0 0xfe 0 ++ anycastTlv 1 0x02 1 ++ anycastTlv 2 0x78 2 ++
  anycastTlv 3 0x01 3

def kNetworkData11 : List Nat :=
  kCommTlv ++ anycastTlv 0 0xf0 0 ++ anycastTlv 1 0x02 1 ++ anycastTlv 2 0x78 2 ++
  anycastTlv 3 0x01 3

def kNetworkData12 : List Nat :=
  kCommTlv ++ anycastTlv 0 0x01 0 ++
  [0x0b, 0x09, 0x81, 0x02, 0x5c, 0x81, 0x0d, 0x03, 0x50, 0x01, 0x01]

def kNetworkData13 : List Nat :=
  kCommTlv ++ anycastTlv 0 0x01 0 ++
  [0x0b, 0x0e, 0x81, 0x02, 0x5c, 0x81,
   0x0d, 0x03, 0x50, 0x01, 0x02,
   0x0d, 0x03, 0x50, 0x02, 0x02]

def kNetworkData14 : List Nat :=
  kCommTlv ++
  [0x0b, 0x13, 0x81, 0x02, 0x5c, 0x07,
   0x0d, 0x03, 0x50, 0x00, 0x01,
   0x0d, 0x03, 0x50, 0x01, 0x02,
   0x0d, 0x03, 0x50, 0x02, 0x03]

def kNetworkData15 : List Nat :=
  kCommTlv ++
  [0x0b, 0x17, 0x81, 0x02, 0x5c, 0x03,
   0x0d, 0x03, 0x50, 0x00, 0x01,
   0x0d, 0x03, 0x50, 0x01, 0x02,
   0x0d, 0x02, 0x50, 0x02,
   0x0d, 0x03, 0x50, 0x03, 0x01]

/-- The preferred sequence number selected over a raw buffer. -/
def preferredSeqOf (buf : List Nat) : Option Nat :=
  (findPreferredAnycastInfo (anycastInfoList buf)).map (fun i => i.seqNum)

/-- The version reported by the preferred anycast selection over a raw
buffer. -/
def preferredVersionOf (buf : List Nat) : Option Nat :=
  (findPreferredAnycastInfo (anycastInfoList buf)).map (fun i => i.version)

/-- The three anycast Service TLV blocks with sequence numbers 250, 10 and
130 used by selection tests 4 to 6, each carrying its own service id and
server RLOC16. -/
def tlvSeq250 : List Nat := anycastTlv 0 0xfa 0

def tlvSeq10 : List Nat := anycastTlv 1 0x0a 1

def tlvSeq130 : List Nat := anycastTlv 2 0x82 2

/-- The four anycast Service TLV blocks with sequence numbers 1, 2, 255 and
254 used by selection tests 8 and 9. -/
def tlvSeq1 : List Nat := anycastTlv 0 0x01 0

def tlvSeq2 : List Nat := anycastTlv 1 0x02 1

def tlvSeq255 : List Nat := anycastTlv 2 0xff 2

def tlvSeq254 : List Nat := anycastTlv 3 0xfe 3

/-- All ways to insert an element into a list. -/
def insertEverywhere {α : Type} (x : α) : List α → List (List α)
  | [] => [[x]]
  | y :: ys => (x :: y :: ys) :: (insertEverywhere x ys).map (fun l => y :: l)

/-- All arrangements (permutations) of a list, by structural recursion. -/
def allPerms {α : Type} : List α → List (List α)
  | [] => [[]]
  | x :: xs => (allPerms xs).flatMap (insertEverywhere x)

end NetData

namespace Dhcp6

/-- Identity association status (dhcp6_client.hpp). -/
inductive IaStatus where
  | invalid
  | solicit
  | soliciting
  | solicitReplied
deriving DecidableEq

/-- A netif unicast address entry: the 128 address bits, the prefix length
and the flags the client sets when installing an address. -/
structure NetifAddr where
  addrBits : List Bool
  pfxLen : Nat
  preferredFlag : Bool
  validFlag : Bool
  originDhcp6 : Bool
deriving DecidableEq

/-- Identity association of the DHCPv6 client (one per DHCP flagged
prefix). -/
structure IdentityAssociation where
  status : IaStatus
  validLifetime : Nat
  preferredLifetime : Nat
  prefixAgentRloc : Nat
  netifAddress : NetifAddr
deriving DecidableEq

instance : Inhabited IdentityAssociation :=
  ⟨{ status := .invalid, validLifetime := 0, preferredLifetime := 0, prefixAgentRloc := 0,
     netifAddress := { addrBits := [], pfxLen := 0, preferredFlag := false, validFlag := false,
                       originDhcp6 := false } }⟩

/-- On mesh prefix configuration as consumed from the Network Data store,
reduced to the fields the client reads: the prefix bits and length, the dhcp
flag and the border router RLOC16. -/
structure OnMeshPfxCfg where
  pfxBits : List Bool
  pfxLen : Nat
  dhcp : Bool
  rloc16 : Nat
deriving DecidableEq

/-- Ip6::Address::HasPrefix on the model: the leading prefix length bits of
the address agree with the prefix. -/
def hasPfx (a : NetifAddr) (c : OnMeshPfxCfg) : Bool :=
  a.addrBits.take c.pfxLen == c.pfxBits.take c.pfxLen

/-- Full client state.  Socket, trickle timer and netif interactions are
modelled as flags and event lists: netifAdded and netifRemoved record the
AddUnicastAddress and RemoveUnicastAddress calls, solicitsSent records the
agent RLOC16 of each emitted Solicit message. -/
structure ClientState where
  ias : List IdentityAssociation
  txid : Nat
  eui64 : Nat
  current : Option Nat
  socketBound : Bool
  trickleRunning : Bool
  startTime : Nat
  netifAdded : List NetifAddr
  netifRemoved : List NetifAddr
  solicitsSent : List Nat
deriving DecidableEq

/-- In place update of one list element. -/
def modifyAt {α : Type} : List α → Nat → (α → α) → List α
  | [], _, _ => []
  | x :: xs, 0, f => f x :: xs
  | x :: xs, n + 1, f => x :: modifyAt xs n f

/-- Removal pass of Client::UpdateAddresses on a single identity
association: associations that are invalid or hold no lease (valid lifetime
zero) are left alone; otherwise, when no dhcp flagged on mesh prefix covers
the installed address, the address is removed from the netif and the
association is marked invalid. -/
def updateAddressesRemoveOne (pfxs : List OnMeshPfxCfg) (ia : IdentityAssociation) :
    IdentityAssociation × Option NetifAddr :=
  if ia.status == .invalid || ia.validLifetime == 0 then (ia, none)
  else if pfxs.any (fun c => c.dhcp && hasPfx ia.netifAddress c) then (ia, none)
  else ({ ia with status := .invalid }, some ia.netifAddress)

/-- Refresh of the prefix agent RLOC16 on the first association that is not
invalid and already covers the prefix (the break on found in the C++ scan);
none when no association covers it. -/
def refreshFirstTracked (c : OnMeshPfxCfg) :
    List IdentityAssociation → Option (List IdentityAssociation)
  | [] => none
  | ia :: rest =>
    if ia.status != IaStatus.invalid && hasPfx ia.netifAddress c then
      some ({ ia with prefixAgentRloc := c.rloc16 } :: rest)
    else (refreshFirstTracked c rest).map (fun l => ia :: l)

/-- Initialisation of the first invalid (free) slot for a new dhcp flagged
prefix: the slot receives the prefix as its address, the Solicit status, a
zero valid lifetime and the prefix agent RLOC16; none when no slot is
free. -/
def initFirstInvalid (c : OnMeshPfxCfg) :
    List IdentityAssociation → Option (List IdentityAssociation)
  | [] => none
  | ia :: rest =>
    if ia.status == IaStatus.invalid then
      some ({ ia with
              netifAddress := { ia.netifAddress with addrBits := c.pfxBits, pfxLen := c.pfxLen }
              status := IaStatus.solicit
              validLifetime := 0
              prefixAgentRloc := c.rloc16 } :: rest)
    else (initFirstInvalid c rest).map (fun l => ia :: l)

/-- Addition pass of Client::UpdateAddresses for a single on mesh prefix
configuration: prefixes without the dhcp flag are skipped; when some non
invalid association already covers the prefix only its agent RLOC16 is
refreshed; otherwise the first invalid slot, when one exists, is initialised
to Solicit for the prefix (with no free slot the prefix is skipped with a
warning). -/
def updateAddressesAddOne (ias : List IdentityAssociation) (c : OnMeshPfxCfg) :
    List IdentityAssociation :=
  if !c.dhcp then ias
  else
    match refreshFirstTracked c ias with
    | some ias2 => ias2
    | none =>
      match initFirstInvalid c ias with
      | some ias2 => ias2
      | none => ias

/-- Client::ProcessNextIdentityAssociation: unless a solicit is in progress,
stop the trickle timer, and when some association is marked Solicit make it
current, draw a fresh transaction id and restart the trickle timer,
reporting whether one was found. -/
def processNextIdentityAssociation (s : ClientState) (freshTxid : Nat) : ClientState × Bool :=
  if (match s.current with
      | some j => (s.ias.getD j default).status == IaStatus.soliciting
      | none => false) then (s, false)
  else
    let s1 := { s with trickleRunning := false }
    match s1.ias.findIdx? (fun ia : IdentityAssociation => ia.status == IaStatus.solicit) with
    | some j => ({ s1 with txid := freshTxid, current := some j, trickleRunning := true }, true)
    | none => (s1, false)

/-- Client::Start: when the socket is not yet bound, open and bind it and
process the next identity association. -/
def clientStart (s : ClientState) (freshTxid : Nat) : ClientState :=
  if s.socketBound then s
  else (processNextIdentityAssociation { s with socketBound := true } freshTxid).1

/-- Client::Stop: stop the trickle timer and close the socket. -/
def clientStop (s : ClientState) : ClientState :=
  { s with trickleRunning := false, socketBound := false }

/-- Client::UpdateAddresses, run on a Thread network data changed event: the
removal pass over all identity associations, the addition pass folded over
the on mesh prefix configurations of the store, and then Start when some
dhcp flagged prefix exists, Stop otherwise. -/
def updateAddresses (s : ClientState) (pfxs : List OnMeshPfxCfg) (freshTxid : Nat) :
    ClientState :=
  let pairs : List (IdentityAssociation × Option NetifAddr) :=
    s.ias.map (updateAddressesRemoveOne pfxs)
  let s1 := { s with
              ias := pairs.map Prod.fst
              netifRemoved := s.netifRemoved ++ pairs.filterMap Prod.snd }
  let s2 := { s1 with ias := pfxs.foldl updateAddressesAddOne s1.ias }
  if pfxs.any (fun c => c.dhcp) then clientStart s2 freshTxid else clientStop s2

/-- Client::Solicit reduced to its observable event: one Solicit message
sent towards the given agent RLOC16. -/
def solicitEmit (s : ClientState) (rloc : Nat) : ClientState :=
  { s with solicitsSent := s.solicitsSent ++ [rloc] }

/-- Client::HandleTrickleTimer: with no current association the trickle
timer stops; a current Solicit association moves to Soliciting, records the
start time and solicits; a Soliciting association solicits again; after
SolicitReplied the client advances to the next association or stops. -/
def handleTrickleTimer (s : ClientState) (now freshTxid : Nat) : ClientState :=
  match s.current with
  | none => { s with trickleRunning := false }
  | some j =>
    match (s.ias.getD j default).status with
    | .solicit =>
      let ias1 := modifyAt s.ias j (fun ia => { ia with status := IaStatus.soliciting })
      let s1 := { s with startTime := now, ias := ias1 }
      solicitEmit s1 (s1.ias.getD j default).prefixAgentRloc
    | .soliciting => solicitEmit s (s.ias.getD j default).prefixAgentRloc
    | .solicitReplied =>
      let s1 := { s with current := none }
      let r := processNextIdentityAssociation s1 freshTxid
      if r.2 then r.1 else clientStop ({ r.1 with trickleRunning := false })
    | .invalid => s


/-- DHCPv6 DUID as read from a Client or Server Identifier option: DUID
type, hardware type, and the link layer address as a number. -/
structure Duid where
  duidType : Nat
  hwType : Nat
  llAddr : Nat
deriving DecidableEq

/-- DHCPv6 option, reduced to the shapes the client reads.  Each constructor
carries the declared option length where the code checks it.  The addr field
of an IA Address option holds the 128 address bits, and the two lifetimes
follow. -/
inductive Dhcp6Opt where
  | clientId (len : Nat) (d : Duid)
  | serverId (len : Nat) (d : Duid)
  | iaNa (iaid t1 t2 : Nat) (subs : List Dhcp6Opt)
  | iaAddress (len : Nat) (addr : List Bool) (preferredLifetime validLifetime : Nat)
  | statusCode (len : Nat) (status : Nat)
  | rapidCommit
  | otherOpt (code : Nat)

/-- DHCPv6 option code of a modelled option. -/
def optCode : Dhcp6Opt → Nat
  | .clientId .. => 1
  | .serverId .. => 2
  | .iaNa .. => 3
  | .iaAddress .. => 5
  | .statusCode .. => 13
  | .rapidCommit => 14
  | .otherOpt c => c

/-- Client::FindOption: the first option carrying the requested code. -/
def findOpt (opts : List Dhcp6Opt) (code : Nat) : Option Dhcp6Opt :=
  opts.find? (fun o => optCode o == code)

/-- Client::ProcessStatusCodeOption: the declared length must cover the
status field and the status must be Success. -/
def statusCodeOk : Dhcp6Opt → Bool
  | .statusCode len status => len ≥ 2 && status == 0
  | _ => false

/-- Client::ProcessServerIdOption: either a DUID-LLT with Ethernet hardware
type, or a DUID-LL of the exact expected length with EUI-64 hardware
type 27. -/
def serverIdOk : Dhcp6Opt → Bool
  | .serverId len d =>
    (d.duidType == 1 && d.hwType == 1) || (len == 12 && d.duidType == 3 && d.hwType == 27)
  | _ => false

/-- Client::ProcessClientIdOption: a DUID-LL of the exact expected length
with EUI-64 hardware type whose link layer address equals this node EUI-64. -/
def clientIdOk (eui64 : Nat) : Dhcp6Opt → Bool
  | .clientId len d =>
    len == 12 && d.duidType == 3 && d.hwType == 27 && d.llAddr == eui64
  | _ => false

/-- Client::ProcessIaAddressOption applied to the identity association list:
the first association that is not invalid, holds no lease, and whose prefix
covers the option address receives the address, the lifetimes and the
SolicitReplied status, and the address is installed; none is returned when
the option length is wrong or no association matches. -/
def iaAddrMatches (ia : IdentityAssociation) (addr : List Bool) : Bool :=
  ia.status != IaStatus.invalid && ia.validLifetime == 0 &&
  ia.netifAddress.addrBits.take ia.netifAddress.pfxLen == addr.take ia.netifAddress.pfxLen

/-- Worker of ProcessIaAddressOption: update of the first matching identity
association, also returning the netif address it installs. -/
def applyIaAddress (addr : List Bool) (pl vl : Nat) :
    List IdentityAssociation → Option (List IdentityAssociation × NetifAddr)
  | [] => none
  | ia :: rest =>
    if iaAddrMatches ia addr then
      let na : NetifAddr :=
        { addrBits := addr
          pfxLen := ia.netifAddress.pfxLen
          preferredFlag := pl != 0
          validFlag := vl != 0
          originDhcp6 := true }
      let ia2 :=
        { ia with
          netifAddress := na
          preferredLifetime := pl
          validLifetime := vl
          status := IaStatus.solicitReplied }
      some (ia2 :: rest, na)
    else
      (applyIaAddress addr pl vl rest).map
        (fun r => (ia :: r.1, r.2))

/-- One ProcessIaAddressOption call on the model. -/
def processIaAddressOption (ias : List IdentityAssociation) :
    Dhcp6Opt → Option (List IdentityAssociation × NetifAddr)
  | .iaAddress len addr pl vl =>
    if len != 24 then none else applyIaAddress addr pl vl ias
  | _ => none

/-- The IA Address loop of Client::ProcessIaNaOption: the IA Address sub
options are processed in order; the first one that fails to parse or matches
no tracked association stops the loop with an error, keeping the updates and
installs already performed (the C++ loop mutates the associations in place
and propagates the error).  The returned flag reports success of the whole
loop. -/
def processIaNaSubs (ias : List IdentityAssociation) (adds : List NetifAddr) :
    List Dhcp6Opt → List IdentityAssociation × List NetifAddr × Bool
  | [] => (ias, adds, true)
  | o :: rest =>
    if optCode o == 5 then
      match processIaAddressOption ias o with
      | none => (ias, adds, false)
      | some r => processIaNaSubs r.1 (adds ++ [r.2]) rest
    else processIaNaSubs ias adds rest

/-- Client::ProcessIaNaOption: an embedded Status Code option must report
Success, then the IA Address loop runs. -/
def processIaNaOption (ias : List IdentityAssociation) :
    Dhcp6Opt → List IdentityAssociation × List NetifAddr × Bool
  | .iaNa _ _ _ subs =>
    (match findOpt subs 13 with
     | some sc => if statusCodeOk sc then processIaNaSubs ias [] subs else (ias, [], false)
     | none => processIaNaSubs ias [] subs)
  | _ => (ias, [], false)

/-- Tail of Client::ProcessReply after the optional top level Status Code
check: a valid Server Identifier, a Client Identifier echoing this node
EUI-64 and a Rapid Commit option are required; then the IA_NA option is
processed (its updates and installs are kept even when its IA Address loop
stops early), and only when the whole loop succeeded the trickle timer
handler runs. -/
def processReplyGuarded (s : ClientState) (opts : List Dhcp6Opt) (now freshTxid : Nat) :
    ClientState :=
  match findOpt opts 2 with
  | none => s
  | some sid =>
    if !serverIdOk sid then s
    else
      match findOpt opts 1 with
      | none => s
      | some cid =>
        if !clientIdOk s.eui64 cid then s
        else if (findOpt opts 14).isNone then s
        else
          match findOpt opts 3 with
          | none => s
          | some iana =>
            let r := processIaNaOption s.ias iana
            let s1 := { s with ias := r.1, netifAdded := s.netifAdded ++ r.2.1 }
            if r.2.2 then handleTrickleTimer s1 now freshTxid else s1

/-- Client::ProcessReply: an optional top level Status Code must report
Success before the guarded tail runs. -/
def processReply (s : ClientState) (opts : List Dhcp6Opt) (now freshTxid : Nat) : ClientState :=
  match findOpt opts 13 with
  | some sc => if statusCodeOk sc then processReplyGuarded s opts now freshTxid else s
  | none => processReplyGuarded s opts now freshTxid

/-- A received DHCPv6 message reduced to the fields the client reads. -/
structure ReplyMsg where
  msgType : Nat
  transactionId : Nat
  options : List Dhcp6Opt

/-- Client::HandleUdpReceive: only a Reply (message type 7) whose
transaction id equals the current client transaction id is processed. -/
def handleUdpReceive (s : ClientState) (m : ReplyMsg) (now freshTxid : Nat) : ClientState :=
  if m.msgType == 7 && m.transactionId == s.txid then processReply s m.options now freshTxid
  else s

end Dhcp6

namespace Sender

/-- Message type, reduced to the two types the indirect sender handles. -/
inductive MsgType where
  | ip6
  | supervision
deriving DecidableEq

/-- A message of the mesh forwarder send queue: its identity, its type, the
indirect transmission child mask (the set of child indexes whose delivery is
pending) and the direct transmission flag. -/
structure Msg where
  mid : Nat
  msgType : MsgType
  childMask : List Nat
  directTx : Bool
deriving DecidableEq

/-- Child states of the child table. -/
inductive ChildState where
  | invalid
  | childIdRequest
  | linkRequest
  | childUpdateRequest
  | restored
  | valid
deriving DecidableEq

/-- Per child indirect transmission state.  The source match message count
(SourceMatchController) doubles as Child::GetIndirectMessageCount. -/
structure Child where
  childState : ChildState
  rxOnWhenIdle : Bool
  indirectMessage : Option Nat
  fragmentOffset : Nat
  waitingForUpdate : Bool
  txSuccess : Bool
  srcMatchCount : Nat
  useShortAddress : Bool
deriving DecidableEq

/-- Frame change kinds requested from the data poll handler. -/
inductive FrameChange where
  | purgeFrame
  | replaceFrame
deriving DecidableEq

/-- Indirect sender state: the enabled flag, the child table, the mesh
forwarder send queue, and the pending frame change requests held by the data
poll handler (DataPollHandler::Clear empties them). -/
structure SenderState where
  enabled : Bool
  children : List Child
  sendQueue : List Msg
  frameRequests : List (FrameChange × Nat)
deriving DecidableEq

/-- Default child used to totalise child table lookups. -/
def defaultChild : Child :=
  { childState := .invalid, rxOnWhenIdle := false, indirectMessage := none, fragmentOffset := 0,
    waitingForUpdate := false, txSuccess := true, srcMatchCount := 0, useShortAddress := false }

/-- ChildMask::Has on the model. -/
def maskHas (m : Msg) (ci : Nat) : Bool := m.childMask.contains ci

/-- ChildMask::Add on the model (setting a bit twice is setting it once). -/
def maskAdd (m : Msg) (ci : Nat) : Msg :=
  if maskHas m ci then m else { m with childMask := m.childMask ++ [ci] }

/-- ChildMask::Remove on the model. -/
def maskRemove (m : Msg) (ci : Nat) : Msg :=
  { m with childMask := m.childMask.filter (fun x => x != ci) }

/-- Lookup of a queued message by identity (messages are heap objects in the
C++ code; identities are unique in any reachable queue). -/
def getMsg : List Msg → Nat → Option Msg
  | [], _ => none
  | m :: rest, i => if m.mid == i then some m else getMsg rest i

/-- Update of the first queued message with the given identity. -/
def updateMsg : List Msg → Nat → (Msg → Msg) → List Msg
  | [], _, _ => []
  | m :: rest, i, f => if m.mid == i then f m :: rest else m :: updateMsg rest i f

/-- MeshForwarder::RemoveMessageIfNoPendingTx: the message leaves the send
queue when its child mask is empty and it is not flagged for direct
transmission. -/
def removeMsgIfNoPendingTx (q : List Msg) (i : Nat) : List Msg :=
  q.filter (fun m => !(m.mid == i && m.childMask.isEmpty && !m.directTx))

/-- Whether the queued message with the given identity currently has the
child index in its indirect transmission mask. -/
def queueMaskHas (q : List Msg) (i ci : Nat) : Bool :=
  match getMsg q i with
  | some m => maskHas m ci
  | none => false

/-- IndirectSender::FindQueuedMessageForSleepyChild: identity of the first
queued message whose mask holds the child and which the checker accepts. -/
def findQueuedMessage (q : List Msg) (ci : Nat) (checker : Msg → Bool) : Option Nat :=
  (q.find? (fun m => maskHas m ci && checker m)).map (fun m => m.mid)

/-- IndirectSender::AcceptSupervisionMessage. -/
def acceptSupervision (m : Msg) : Bool := m.msgType == MsgType.supervision

/-- Child table read, totalised with the default child. -/
def childAt (s : SenderState) (ci : Nat) : Child := s.children.getD ci defaultChild

/-- In place update of one child table slot. -/
def updateChild (s : SenderState) (ci : Nat) (f : Child → Child) : SenderState :=
  { s with children := Dhcp6.modifyAt s.children ci f }

/-- DataPollHandler::RequestFrameChange modelled as recording the pending
request. -/
def requestFrame (s : SenderState) (k : FrameChange) (ci : Nat) : SenderState :=
  { s with frameRequests := s.frameRequests ++ [(k, ci)] }

/-- IndirectSender::UpdateIndirectMessage: the first queued message for the
child becomes its current indirect message, the waiting flag clears, the
fragment offset resets and the transmission success flag is set. -/
def updateIndirectMessage (s : SenderState) (ci : Nat) : SenderState :=
  let newMsg := findQueuedMessage s.sendQueue ci (fun _ => true)
  updateChild s ci (fun c =>
    { c with waitingForUpdate := false, indirectMessage := newMsg, fragmentOffset := 0,
             txSuccess := true })

/-- IndirectSender::RequestMessageUpdate: when the current message no longer
carries the child in its mask the current message clears and a frame purge is
requested; otherwise, unless an update is already pending or nothing
changed, a fresh current message is installed directly (from the idle state)
or, when no fragment of the current message is out yet, a frame replace is
requested. -/
def requestMessageUpdate (s : SenderState) (ci : Nat) : SenderState :=
  let c := childAt s ci
  let curStillForChild :=
    match c.indirectMessage with
    | some mid => queueMaskHas s.sendQueue mid ci
    | none => true
  if c.indirectMessage.isSome && !curStillForChild then
    let s1 := updateChild s ci (fun c =>
      { c with indirectMessage := none, waitingForUpdate := true })
    requestFrame s1 .purgeFrame ci
  else if c.waitingForUpdate then s
  else
    let newMsg := findQueuedMessage s.sendQueue ci (fun _ => true)
    if c.indirectMessage == newMsg then s
    else
      match c.indirectMessage with
      | none => updateIndirectMessage s ci
      | some _ =>
        if c.fragmentOffset != 0 then s
        else
          let s1 := updateChild s ci (fun c => { c with waitingForUpdate := true })
          requestFrame s1 .replaceFrame ci

/-- IndirectSender::RemoveMessageFromSleepyChild: NotFound (false) when the
mask bit is already clear; otherwise the bit clears, the source match count
decrements and a message update is requested. -/
def removeMessageFromSleepyChild (s : SenderState) (mid ci : Nat) : SenderState × Bool :=
  if !queueMaskHas s.sendQueue mid ci then (s, false)
  else
    let s1 := { s with sendQueue := updateMsg s.sendQueue mid (fun m => maskRemove m ci) }
    let s2 := updateChild s1 ci (fun c => { c with srcMatchCount := c.srcMatchCount - 1 })
    (requestMessageUpdate s2 ci, true)

/-- IndirectSender::AddMessageForSleepyChild (precondition: the child is not
rx on when idle).  Nothing happens when the mask bit is already set.
Otherwise the bit is set and the source match count incremented; when the
new message is not a supervision message and the child now has more than one
queued message, a pending supervision message for the child is removed from
the child and from the send queue; finally a message update is requested. -/
def addMessageForSleepyChild (s : SenderState) (mid ci : Nat) : SenderState :=
  if queueMaskHas s.sendQueue mid ci then s
  else
    let s1 := { s with sendQueue := updateMsg s.sendQueue mid (fun m => maskAdd m ci) }
    let s2 := updateChild s1 ci (fun c => { c with srcMatchCount := c.srcMatchCount + 1 })
    let newType := (getMsg s2.sendQueue mid).map (fun m => m.msgType)
    let s3 :=
      if newType != some MsgType.supervision && (childAt s2 ci).srcMatchCount > 1 then
        match findQueuedMessage s2.sendQueue ci acceptSupervision with
        | some sid =>
          let r := removeMessageFromSleepyChild s2 sid ci
          { r.1 with sendQueue := removeMsgIfNoPendingTx r.1.sendQueue sid }
        | none => s2
      else s2
    requestMessageUpdate s3 ci

/-- IndirectSender::Stop: when enabled, every child not in the invalid state
loses its current indirect message and has its source match message count
reset, and the data poll handler is cleared; the enabled flag always drops.
The per message child masks of the send queue are not touched. -/
def senderStop (s : SenderState) : SenderState :=
  if !s.enabled then { s with enabled := false }
  else
    { s with
      enabled := false
      children := s.children.map (fun c =>
        if c.childState != ChildState.invalid then
          { c with indirectMessage := none, srcMatchCount := 0 }
        else c)
      frameRequests := [] }

end Sender

namespace Dhcp6

/-- All zero 128 bit address, inside the all zero /64 prefix. -/
def insideAddr : List Bool := List.replicate 128 false

/-- Address outside the all zero /64 prefix (first bit set). -/
def outsideAddr : List Bool := true :: List.replicate 127 false

/-- Sample identity association: soliciting the all zero /64 prefix, no
lease yet. -/
def sampleIa : IdentityAssociation :=
  { status := IaStatus.soliciting
    validLifetime := 0
    preferredLifetime := 0
    prefixAgentRloc := 0x5000
    netifAddress := { addrBits := insideAddr, pfxLen := 64, preferredFlag := false,
                      validFlag := false, originDhcp6 := false } }

/-- Sample client state tracking the single sample association. -/
def sampleClient : ClientState :=
  { ias := [sampleIa]
    txid := 9
    eui64 := 5
    current := some 0
    socketBound := true
    trickleRunning := true
    startTime := 0
    netifAdded := []
    netifRemoved := []
    solicitsSent := [] }

/-- Reply options passing every header check whose IA_NA carries an IA
Address outside every tracked prefix followed by one inside the tracked
prefix. -/
def replyOptsTwoAddrs : List Dhcp6Opt :=
  [Dhcp6Opt.serverId 12 ⟨3, 27, 77⟩, Dhcp6Opt.clientId 12 ⟨3, 27, 5⟩, Dhcp6Opt.rapidCommit,
   Dhcp6Opt.iaNa 0 0 0 [Dhcp6Opt.iaAddress 24 outsideAddr 1800 1800,
                        Dhcp6Opt.iaAddress 24 insideAddr 1800 1800]]

/-- Reply options passing every header check whose IA_NA carries a single IA
Address inside the tracked prefix. -/
def replyOptsOneAddr : List Dhcp6Opt :=
  [Dhcp6Opt.serverId 12 ⟨3, 27, 77⟩, Dhcp6Opt.clientId 12 ⟨3, 27, 5⟩, Dhcp6Opt.rapidCommit,
   Dhcp6Opt.iaNa 0 0 0 [Dhcp6Opt.iaAddress 24 insideAddr 1800 1800]]

/-- Sample on mesh prefix configuration carrying the dhcp flag. -/
def sampleDhcpPfx : OnMeshPfxCfg :=
  { pfxBits := insideAddr, pfxLen := 64, dhcp := true, rloc16 := 0x5000 }

/-- Identity association holding a lease on an address outside the tracked
prefix (its prefix left the Network Data). -/
def staleLeaseIa : IdentityAssociation :=
  { status := IaStatus.solicitReplied
    validLifetime := 1800
    preferredLifetime := 1800
    prefixAgentRloc := 0x2400
    netifAddress := { addrBits := outsideAddr, pfxLen := 64, preferredFlag := true,
                      validFlag := true, originDhcp6 := true } }

/-- Free (invalid) identity association slot. -/
def freeSlotIa : IdentityAssociation :=
  { status := IaStatus.invalid
    validLifetime := 0
    preferredLifetime := 0
    prefixAgentRloc := 0
    netifAddress := { addrBits := insideAddr, pfxLen := 0, preferredFlag := false,
                      validFlag := false, originDhcp6 := false } }

/-- Server Identifier option passing the DUID-LL EUI-64 check. -/
def goodServerIdOpt : Dhcp6Opt := Dhcp6Opt.serverId 12 ⟨3, 27, 77⟩

/-- Server Identifier option failing both DUID shape checks. -/
def badServerIdOpt : Dhcp6Opt := Dhcp6Opt.serverId 3 ⟨9, 9, 9⟩

/-- Client Identifier option echoing the sample client EUI-64. -/
def goodClientIdOpt : Dhcp6Opt := Dhcp6Opt.clientId 12 ⟨3, 27, 5⟩

/-- Client Identifier option carrying a foreign link layer address. -/
def badClientIdOpt : Dhcp6Opt := Dhcp6Opt.clientId 12 ⟨3, 27, 6⟩

/-- IA Address option whose address is outside every tracked prefix. -/
def outsideIaAddrOpt : Dhcp6Opt := Dhcp6Opt.iaAddress 24 outsideAddr 1800 1800

/-- Netif address the client installs for the sample association on a lease
of the all zero address with both lifetimes 1800. -/
def leasedNetifAddr : NetifAddr :=
  { addrBits := insideAddr, pfxLen := 64, preferredFlag := true, validFlag := true,
    originDhcp6 := true }

/-- The sample association after a successful lease of the all zero address
with both lifetimes 1800. -/
def leasedIa : IdentityAssociation :=
  { status := IaStatus.solicitReplied
    validLifetime := 1800
    preferredLifetime := 1800
    prefixAgentRloc := 0x5000
    netifAddress := leasedNetifAddr }

/-- Client state for the network data change scenario: one stale lease and
one free slot. -/
def netDataChangeClient : ClientState :=
  { ias := [staleLeaseIa, freeSlotIa]
    txid := 3
    eui64 := 5
    current := none
    socketBound := false
    trickleRunning := false
    startTime := 0
    netifAdded := []
    netifRemoved := []
    solicitsSent := [] }

end Dhcp6

namespace Sender

/-- Sample valid sleepy child holding message 1 as its current indirect
message. -/
def stopSampleChild : Child :=
  { childState := ChildState.valid, rxOnWhenIdle := false, indirectMessage := some 1,
    fragmentOffset := 0, waitingForUpdate := false, txSuccess := true, srcMatchCount := 1,
    useShortAddress := true }

/-- Sample sender state: one valid sleepy child, one queued message whose
indirect transmission mask holds child index 0. -/
def stopSampleState : SenderState :=
  { enabled := true
    children := [stopSampleChild]
    sendQueue := [{ mid := 1, msgType := MsgType.ip6, childMask := [0], directTx := false }]
    frameRequests := [] }

/-- Sample sender state for the add idempotence claim: one valid sleepy
child with nothing queued, and message 1 in the send queue destined to
nobody yet. -/
def addSampleState : SenderState :=
  { enabled := true
    children := [{ defaultChild with childState := ChildState.valid }]
    sendQueue := [{ mid := 1, msgType := MsgType.ip6, childMask := [], directTx := false }]
    frameRequests := [] }

end Sender

/-! ### Shared lemmas and unit test replay -/

namespace NetData

/-- The fuelled TLV walk does not depend on the fuel once the fuel covers
the buffer length. -/
theorem parseTlvsFuel_mono : ∀ (f1 f2 : Nat) (l : List Nat), l.length ≤ f1 → l.length ≤ f2 →
    parseTlvsFuel f1 l = parseTlvsFuel f2 l := by
  intro f1
  induction f1 with
  | zero =>
    intro f2 l h1 h2
    rcases l with _ | ⟨a, _ | ⟨b, rest⟩⟩ <;> simp_all [parseTlvsFuel]
  | succ n ih =>
    intro f2 l h1 h2
    rcases l with _ | ⟨a, _ | ⟨b, rest⟩⟩
    · cases f2 <;> simp [parseTlvsFuel]
    · cases f2 <;> simp [parseTlvsFuel]
    · rcases f2 with _ | m
      · simp at h2
      · simp only [parseTlvsFuel]
        split
        · congr 1
          apply ih
          · simp only [List.length_drop]
            simp only [List.length_cons] at h1
            omega
          · simp only [List.length_drop]
            simp only [List.length_cons] at h2
            omega
        · rfl

/-- Unfolding of the TLV walk on a buffer with a full header. -/
theorem parseTlvs_cons (b0 b1 : Nat) (rest : List Nat) :
    parseTlvs (b0 :: b1 :: rest) =
      if b1 ≤ rest.length then (b0, rest.take b1) :: parseTlvs (rest.drop b1) else [] := by
  show parseTlvsFuel (rest.length + 2) (b0 :: b1 :: rest) = _
  simp only [parseTlvsFuel]
  split
  · congr 1
    apply parseTlvsFuel_mono
    · simp only [List.length_drop]
      omega
    · exact Nat.le_refl _
  · rfl

/-- The two bit preference decoder only produces the three legal values. -/
theorem prefFrom2Bit_cases (v : Nat) :
    prefFrom2Bit v = -1 ∨ prefFrom2Bit v = 0 ∨ prefFrom2Bit v = 1 := by
  unfold prefFrom2Bit
  split
  · right; right; rfl
  · left; rfl
  · right; left; rfl

/-- Every route entry emitted from a Prefix TLV value carries a preference
produced by the two bit decoder. -/
theorem prefixTlvRoutes_preference (v : List Nat) (r : RouteCfg)
    (h : r ∈ prefixTlvRoutes v) : ∃ n, r.preference = prefFrom2Bit n := by
  unfold prefixTlvRoutes at h
  rcases v with _ | ⟨d, _ | ⟨plen, rest⟩⟩
  · simp at h
  · simp at h
  · simp only at h
    split at h
    · rcases List.mem_flatMap.1 h with ⟨sub, _, hsub⟩
      split at hsub
      · rcases List.mem_map.1 hsub with ⟨e, _, he⟩
        exact ⟨e.2 / 64, by rw [← he]⟩
      · simp at hsub
    · simp at h

/-- Every emitted external route entry carries a preference produced by the
two bit decoder. -/
theorem externalRouteList_preference (buf : List Nat) (r : RouteCfg)
    (h : r ∈ externalRouteList buf) : ∃ n, r.preference = prefFrom2Bit n := by
  unfold externalRouteList at h
  rcases List.mem_flatMap.1 h with ⟨t, _, ht⟩
  split at ht
  · exact prefixTlvRoutes_preference _ _ ht
  · simp at ht

/-- Membership in the deduplicating role filtered fold: an RLOC16 is in the
result exactly when it was already accumulated or appears in the remaining
candidates and matches the role filter. -/
theorem mem_foldl_addRloc (role : RoleFilter) (l acc : List Nat) (r : Nat) :
    r ∈ l.foldl (addRloc role) acc ↔ r ∈ acc ∨ (r ∈ l ∧ roleMatches role r = true) := by
  induction l generalizing acc with
  | nil => simp
  | cons x xs ih =>
    simp only [List.foldl_cons, ih, addRloc]
    split
    · rename_i hcond
      simp only [Bool.and_eq_true, Bool.not_eq_true'] at hcond
      constructor
      · rintro (hmem | hrest)
        · rcases List.mem_append.1 hmem with hacc | hx
          · exact Or.inl hacc
          · rcases List.mem_singleton.1 hx with rfl
            exact Or.inr ⟨List.mem_cons_self _ _, hcond.1⟩
        · exact Or.inr ⟨List.mem_cons_of_mem _ hrest.1, hrest.2⟩
      · rintro (hacc | ⟨hmem, hrole⟩)
        · exact Or.inl (List.mem_append_left _ hacc)
        · rcases List.mem_cons.1 hmem with rfl | hxs
          · exact Or.inl (List.mem_append_right _ (List.mem_singleton.2 rfl))
          · exact Or.inr ⟨hxs, hrole⟩
    · rename_i hcond
      simp only [Bool.and_eq_true, Bool.not_eq_true', Classical.not_and_iff_or_not_not,
        Bool.not_eq_false] at hcond
      constructor
      · rintro (hacc | hrest)
        · exact Or.inl hacc
        · exact Or.inr ⟨List.mem_cons_of_mem _ hrest.1, hrest.2⟩
      · rintro (hacc | ⟨hmem, hrole⟩)
        · exact Or.inl hacc
        · rcases List.mem_cons.1 hmem with rfl | hxs
          · rcases hcond with hrole' | hin
            · exact absurd hrole hrole'
            · exact Or.inl (List.elem_iff.1 hin)
          · exact Or.inr ⟨hxs, hrole⟩

/-- Membership in the RLOC enumeration: the RLOC16 appears among the raw
candidates and matches the role filter. -/
theorem mem_findRlocs (buf : List Nat) (f : BrFilter) (role : RoleFilter) (r : Nat) :
    r ∈ findRlocs buf f role ↔ r ∈ collectRlocs buf f ∧ roleMatches role r = true := by
  unfold findRlocs
  rw [mem_foldl_addRloc]
  simp

end NetData

namespace NetData

/-- Replay of the first TestNetworkDataIterator case: the two routes of the
final valid Prefix TLV are emitted, with the expected RLOC16, preference and
stability, and nothing else. -/
theorem replayIterator1 :
    (externalRouteList kNetworkDataIter1).map
        (fun r => (r.rloc16, r.preference, r.stable, r.pfxLen)) =
      [(0xc800, 1, false, 64), (0x5400, 0, true, 64)] := by decide

/-- Replay of the second TestNetworkDataIterator case: the five expected
routes in buffer order. -/
theorem replayIterator2 :
    (externalRouteList kNetworkDataIter2).map
        (fun r => (r.rloc16, r.preference, r.nat64, r.stable, r.pfxLen)) =
      [(0x1000, 1, false, false, 64), (0x5400, 0, false, true, 64),
       (0x1000, 0, true, false, 64), (0x5400, 0, false, true, 32),
       (0x0401, 0, false, true, 32)] := by decide

/-- Replay of the third TestNetworkDataIterator case: routes, on mesh
entries and every RLOC enumeration of the unit test. -/
theorem replayIterator3 :
    (externalRouteList kNetworkDataIter3).map (fun r => (r.rloc16, r.preference, r.stable)) =
      [(0xec00, 0, true), (0x2801, -1, true)] ∧
    (onMeshList kNetworkDataIter3).map
        (fun c => (c.rloc16, c.preference, c.stable, c.defaultRoute, c.onMesh)) =
      [(0x2800, 0, true, true, true), (0x2801, 0, true, true, true),
       (0x4c00, 0, true, false, true), (0x2800, 1, true, true, true)] ∧
    findRlocs kNetworkDataIter3 .anyBrOrServer .anyRole = [0x2800, 0x2801, 0x4c00, 0xec00] ∧
    findRlocs kNetworkDataIter3 .anyBrOrServer .routerRoleOnly = [0x2800, 0x4c00, 0xec00] ∧
    findRlocs kNetworkDataIter3 .anyBrOrServer .childRoleOnly = [0x2801] ∧
    findRlocs kNetworkDataIter3 .brProvidingExternalIpConn .anyRole = [0x2800, 0x2801, 0xec00] ∧
    findRlocs kNetworkDataIter3 .brProvidingExternalIpConn .routerRoleOnly = [0x2800, 0xec00] ∧
    findRlocs kNetworkDataIter3 .brProvidingExternalIpConn .childRoleOnly = [0x2801] := by
  refine ⟨by decide, by decide, by decide, by decide, by decide, by decide, by decide, by decide⟩

/-- Replay of TestNetworkDataDsnSrpServices: the six anycast entries, the
preferred entry, and the RLOC enumerations. -/
theorem replaySrpServices :
    (anycastInfoList kNetworkDataSrp).map (fun i => (i.seqNum, i.version, i.rloc16)) =
      [(0x02, 0, 0x2800), (0xff, 5, 0x6c00), (0x03, 0, 0x4c00),
       (0xfe, 7, 0x1200), (0xfe, 6, 0x1201), (0xfe, 7, 0x1600)] ∧
    findPreferredAnycastInfo (anycastInfoList kNetworkDataSrp) =
      some { seqNum := 0x03, version := 0, rloc16 := 0x4c00 } ∧
    findRlocs kNetworkDataSrp .anyBrOrServer .anyRole =
      [0x2800, 0x6c00, 0x4c00, 0x0000, 0x1401, 0x1200, 0x1201, 0x1600] ∧
    findRlocs kNetworkDataSrp .anyBrOrServer .childRoleOnly = [0x1401, 0x1201] ∧
    findRlocs kNetworkDataSrp .brProvidingExternalIpConn .anyRole = [] := by
  refine ⟨by decide, by decide, by decide, by decide, by decide⟩

/-- Replay of the fifteen cases of
TestNetworkDataDsnSrpAnycastSeqNumSelection: for every buffer, the entry
sequence numbers, the preferred sequence number and the preferred version
equal the unit test expectations. -/
theorem replaySeqNumSelection :
    ([kNetworkData1, kNetworkData2, kNetworkData3, kNetworkData4, kNetworkData5,
      kNetworkData6, kNetworkData7, kNetworkData8, kNetworkData9, kNetworkData10,
      kNetworkData11, kNetworkData12, kNetworkData13, kNetworkData14, kNetworkData15]).map
        (fun b => ((anycastInfoList b).map (fun i => i.seqNum),
                   preferredSeqOf b, preferredVersionOf b)) =
      [([1, 129], some 129, some 0),
       ([133, 5], some 133, some 0),
       ([1, 2, 255], some 2, some 0),
       ([10, 130, 250], some 250, some 0),
       ([130, 250, 10], some 250, some 0),
       ([250, 10, 130], some 250, some 0),
       ([250, 10, 138], some 250, some 0),
       ([1, 2, 255, 254], some 2, some 0),
       ([1, 2, 255, 254], some 2, some 0),
       ([254, 2, 120, 1], some 120, some 0),
       ([240, 2, 120, 1], some 240, some 0),
       ([1, 129], some 129, some 1),
       ([1, 129, 129], some 129, some 2),
       ([7, 7, 7], some 7, some 1),
       ([3, 3, 3, 3], some 3, some 0)] := by decide

end NetData

/-! ### Claim theorems -/

/-- C7: for every buffer and filter, the RLOC enumeration over any role is
the union of the router role and child role enumerations, the two halves are
disjoint, and membership in each half is governed by the low nine bits of
the RLOC16. -/
theorem c7_role_filter_partition (buf : List Nat) (f : NetData.BrFilter) (r : Nat) :
    (r ∈ NetData.findRlocs buf f NetData.RoleFilter.anyRole ↔
      r ∈ NetData.findRlocs buf f NetData.RoleFilter.routerRoleOnly ∨
      r ∈ NetData.findRlocs buf f NetData.RoleFilter.childRoleOnly) ∧
    ¬(r ∈ NetData.findRlocs buf f NetData.RoleFilter.routerRoleOnly ∧
      r ∈ NetData.findRlocs buf f NetData.RoleFilter.childRoleOnly) ∧
    (r ∈ NetData.findRlocs buf f NetData.RoleFilter.routerRoleOnly → r % 512 = 0) ∧
    (r ∈ NetData.findRlocs buf f NetData.RoleFilter.childRoleOnly → r % 512 ≠ 0) := by
  simp only [NetData.mem_findRlocs, NetData.roleMatches, NetData.isRouterRloc]
  cases h : (r % 512 == 0) <;> simp_all

/-- C8: the two bit preference field of every Has Route entry decodes to a
signed value in the three legal values, with 00 medium, 01 high, the
reserved 10 clamped to medium and 11 low; every emitted external route entry
carries such a value. -/
theorem c8_preference_decoding :
    (NetData.prefFrom2Bit 0 = 0 ∧ NetData.prefFrom2Bit 1 = 1 ∧
     NetData.prefFrom2Bit 2 = 0 ∧ NetData.prefFrom2Bit 3 = -1) ∧
    ∀ (buf : List Nat) (r : NetData.RouteCfg), r ∈ NetData.externalRouteList buf →
      r.preference = -1 ∨ r.preference = 0 ∨ r.preference = 1 := by
  refine ⟨⟨rfl, rfl, rfl, rfl⟩, ?_⟩
  intro buf r hr
  rcases NetData.externalRouteList_preference buf r hr with ⟨n, hn⟩
  rw [hn]
  exact NetData.prefFrom2Bit_cases n

/-- Sample external route of the first iterator test used to instantiate the
preference range theorem. -/
theorem c8_preference_decoding_witness :
    { pfx := [0xFD, 0x00, 0x12, 0x34, 0x00, 0x00, 0x00, 0x00], pfxLen := 64, rloc16 := 0xc800,
      preference := 1, nat64 := false, advPio := false,
      stable := false : NetData.RouteCfg }.preference = -1 ∨
    { pfx := [0xFD, 0x00, 0x12, 0x34, 0x00, 0x00, 0x00, 0x00], pfxLen := 64, rloc16 := 0xc800,
      preference := 1, nat64 := false, advPio := false,
      stable := false : NetData.RouteCfg }.preference = 0 ∨
    { pfx := [0xFD, 0x00, 0x12, 0x34, 0x00, 0x00, 0x00, 0x00], pfxLen := 64, rloc16 := 0xc800,
      preference := 1, nat64 := false, advPio := false,
      stable := false : NetData.RouteCfg }.preference = 1 :=
  c8_preference_decoding.2 NetData.kNetworkDataIter1 _ (by decide)

/-- C9: ContainsBorderRouterWithRloc holds exactly on membership in the
external connectivity RLOC enumeration over any role; on the third iterator
test buffer the border router entry 0x4c00 (on mesh but without default
route) is rejected even though the any filter enumeration contains it. -/
theorem c9_contains_border_router (buf : List Nat) (r : Nat) :
    (NetData.containsBorderRouterWithRloc buf r = true ↔
      r ∈ NetData.findRlocs buf NetData.BrFilter.brProvidingExternalIpConn
            NetData.RoleFilter.anyRole) ∧
    NetData.containsBorderRouterWithRloc NetData.kNetworkDataIter3 0x4c00 = false ∧
    (NetData.findRlocs NetData.kNetworkDataIter3 NetData.BrFilter.anyBrOrServer
        NetData.RoleFilter.anyRole).contains 0x4c00 = true := by
  refine ⟨?_, by decide, by decide⟩
  unfold NetData.containsBorderRouterWithRloc
  exact List.elem_iff

/-- C2 counterexample: stopping the indirect sender on a state with one
queued message destined to child 0 leaves the indirect transmission mask bit
of that message set, although the claim states that after Stop no message in
the send queue retains a mask bit for any child. -/
theorem c2_stop_counterexample :
    (Sender.senderStop Sender.stopSampleState).enabled = false ∧
    (Sender.senderStop Sender.stopSampleState).sendQueue.any
      (fun m => Sender.maskHas m 0) = true := by decide

/-- C2 amended: Stop on an enabled sender drops the enabled flag, clears the
pending data poll handler requests, clears the current indirect message and
resets the source match message count of every child not in the invalid
state, and leaves the send queue, including every per message indirect
transmission child mask, unchanged. -/
theorem c2_stop_amended (s : Sender.SenderState) (h : s.enabled = true) :
    (Sender.senderStop s).enabled = false ∧
    (Sender.senderStop s).sendQueue = s.sendQueue ∧
    (Sender.senderStop s).frameRequests = [] ∧
    ∀ c ∈ s.children, c.childState ≠ Sender.ChildState.invalid →
      { c with indirectMessage := none, srcMatchCount := 0 } ∈
        (Sender.senderStop s).children := by
  unfold Sender.senderStop
  rw [if_neg (by simp [h])]
  refine ⟨rfl, rfl, rfl, ?_⟩
  intro c hc hstate
  have : (fun c : Sender.Child =>
      if c.childState != Sender.ChildState.invalid then
        { c with indirectMessage := none, srcMatchCount := 0 }
      else c) c = { c with indirectMessage := none, srcMatchCount := 0 } := by
    simp only [bne_iff_ne, ne_eq, hstate, not_false_eq_true, if_pos]
  exact this ▸ List.mem_map_of_mem _ hc

/-- Instantiation of the amended Stop theorem on the sample state. -/
theorem c2_stop_amended_witness :
    (Sender.senderStop Sender.stopSampleState).frameRequests = [] ∧
    { Sender.stopSampleChild with indirectMessage := none, srcMatchCount := 0 } ∈
      (Sender.senderStop Sender.stopSampleState).children := by
  have h := c2_stop_amended Sender.stopSampleState rfl
  exact ⟨h.2.2.1, h.2.2.2 Sender.stopSampleChild (by decide) (by decide)⟩

namespace NetData

/-- When the tracked entries and every scanned entry share one sequence
number, the scan keeps the tracked sequence numbers and RLOC16 values and
folds the minimum over the versions. -/
theorem foldl_scanStep_same_seq (q : Nat) :
    ∀ (rest : List AnycastInfo) (bv br mv mr : Nat),
      (∀ x ∈ rest, x.seqNum = q) →
      rest.foldl scanStep ⟨⟨q, bv, br⟩, ⟨q, mv, mr⟩⟩ =
        ⟨⟨q, rest.foldl (fun v x => min v x.version) bv, br⟩,
         ⟨q, rest.foldl (fun v x => min v x.version) mv, mr⟩⟩ := by
  intro rest
  induction rest with
  | nil => intro bv br mv mr _; rfl
  | cons x xs ih =>
    intro bv br mv mr hall
    have hx : x.seqNum = q := hall x (List.mem_cons_self _ _)
    have hstep : scanStep ⟨⟨q, bv, br⟩, ⟨q, mv, mr⟩⟩ x =
        ⟨⟨q, min bv x.version, br⟩, ⟨q, min mv x.version, mr⟩⟩ := by
      unfold scanStep
      simp [isGreaterSerial, hx]
    simp only [List.foldl_cons, hstep, hx]
    exact ih (min bv x.version) br (min mv x.version) mr
      (fun y hy => hall y (List.mem_cons_of_mem _ hy))

/-- The numeric tracker of the scan dominates its starting value and every
scanned sequence number. -/
theorem foldl_scanStep_maxNum_ge (l : List AnycastInfo) :
    ∀ (s : PreferredScan),
      s.maxNum.seqNum ≤ (l.foldl scanStep s).maxNum.seqNum ∧
      ∀ x ∈ l, x.seqNum ≤ (l.foldl scanStep s).maxNum.seqNum := by
  induction l with
  | nil => intro s; exact ⟨Nat.le_refl _, by simp⟩
  | cons x xs ih =>
    intro s
    have hstep : s.maxNum.seqNum ≤ (scanStep s x).maxNum.seqNum ∧
        x.seqNum ≤ (scanStep s x).maxNum.seqNum := by
      unfold scanStep
      dsimp only
      split
      · rename_i hgt
        exact ⟨Nat.le_of_lt hgt, Nat.le_refl _⟩
      · rename_i hgt
        split
        · rename_i heq
          have heq' : x.seqNum = s.maxNum.seqNum := by simpa using heq
          exact ⟨Nat.le_refl _, Nat.le_of_eq heq'⟩
        · exact ⟨Nat.le_refl _, by omega⟩
    obtain ⟨ihm, ihall⟩ := ih (scanStep s x)
    refine ⟨Nat.le_trans hstep.1 ihm, ?_⟩
    intro y hy
    rcases List.mem_cons.1 hy with rfl | hys
    · simpa using Nat.le_trans hstep.2 ihm
    · simpa using ihall y hys

end NetData

/-- C1 counterexample: on the fourteenth selection test buffer the three
anycast entries all carry sequence number 7 with versions 1, 2 and 3, and
the preferred entry search reports version 1, not version 3 as the claim
states (matching the unit test expectation kPreferredVer14 = 1). -/
theorem c1_version_tie_counterexample :
    (NetData.anycastInfoList NetData.kNetworkData14).map (fun i => (i.seqNum, i.version)) =
      [(7, 1), (7, 2), (7, 3)] ∧
    NetData.preferredVersionOf NetData.kNetworkData14 = some 1 ∧
    NetData.preferredVersionOf NetData.kNetworkData14 ≠ some 3 := by decide

/-- C1 amended: when every candidate entry carries one common sequence
number, the preferred entry search returns that sequence number together
with the minimum of the candidate versions and the RLOC16 of the first
candidate; in particular, for the three entries of the fourteenth selection
test (all sequence number 7, versions 1, 2, 3) the reported version is 1,
and on the fifteenth test (versions 1, 2, 0, 1) it is 0. -/
theorem c1_version_tie_amended :
    (∀ (q bv br : Nat) (rest : List NetData.AnycastInfo),
       (∀ x ∈ rest, x.seqNum = q) →
       NetData.findPreferredAnycastInfo (⟨q, bv, br⟩ :: rest) =
         some ⟨q, rest.foldl (fun v x => min v x.version) bv, br⟩) ∧
    NetData.findPreferredAnycastInfo (NetData.anycastInfoList NetData.kNetworkData14) =
      some ⟨7, 1, 0x5000⟩ ∧
    NetData.findPreferredAnycastInfo (NetData.anycastInfoList NetData.kNetworkData15) =
      some ⟨3, 0, 0x5000⟩ := by
  refine ⟨?_, by decide, by decide⟩
  intro q bv br rest hall
  unfold NetData.findPreferredAnycastInfo
  simp only [NetData.foldl_scanStep_same_seq q rest bv br bv br hall]
  have hcheck : ((⟨q, bv, br⟩ :: rest : List NetData.AnycastInfo).all
      (fun i => i.seqNum == q || NetData.isGreaterSerial q i.seqNum)) = true := by
    rw [List.all_eq_true]
    intro x hx
    rcases List.mem_cons.1 hx with rfl | hxs
    · simp
    · simp [hall x hxs]
  simp only [hcheck, if_pos]

/-- Instantiation of the amended version tie theorem on the three entries of
the fourteenth selection test. -/
theorem c1_version_tie_amended_witness :
    NetData.findPreferredAnycastInfo
        [⟨7, 1, 0x5000⟩, ⟨7, 2, 0x5001⟩, ⟨7, 3, 0x5002⟩] = some ⟨7, 1, 0x5000⟩ := by
  have h := c1_version_tie_amended.1 7 1 0x5000 [⟨7, 2, 0x5001⟩, ⟨7, 3, 0x5002⟩] (by decide)
  simpa using h

/-- C4 counterexample: on the sixth selection test buffer the candidate
sequence numbers are 250, 10 and 130; under the circular in front of rule
stated by the spec the set of candidates no other candidate is in front of
is empty (the relation is cyclic on this set), yet an entry is preferred
(sequence number 250), so the preferred sequence number is not an element of
that set. -/
theorem c4_highest_set_counterexample :
    (NetData.anycastInfoList NetData.kNetworkData6).map (fun i => i.seqNum) = [250, 10, 130] ∧
    NetData.specHighestSeqSet [250, 10, 130] = [] ∧
    NetData.preferredSeqOf NetData.kNetworkData6 = some 250 := by decide

/-- C4 amended: the preferred entry always carries a sequence number that
either no candidate is in front of under the circular rule (the serial
comparison was well defined) or that is the numerically largest candidate
(the fallback when the circular relation is cyclic); in every arrangement of
the candidate entries in the buffer, the set 250, 10, 130 selects 250 (by
the numeric fallback, its circular highest set being empty) and the set
1, 2, 255, 254 selects 2. -/
theorem c4_circular_selection_amended :
    (∀ (es : List NetData.AnycastInfo) (out : NetData.AnycastInfo),
       (∀ x ∈ es, x.seqNum < 256) →
       NetData.findPreferredAnycastInfo es = some out →
       (∀ x ∈ es, NetData.specInFrontOf x.seqNum out.seqNum = false) ∨
       (∀ x ∈ es, x.seqNum ≤ out.seqNum)) ∧
    ((NetData.allPerms [NetData.tlvSeq250, NetData.tlvSeq10, NetData.tlvSeq130]).all
      (fun bs => NetData.preferredSeqOf (NetData.kCommTlv ++ bs.flatten) == some 250)) = true ∧
    ((NetData.allPerms
        [NetData.tlvSeq1, NetData.tlvSeq2, NetData.tlvSeq255, NetData.tlvSeq254]).all
      (fun bs => NetData.preferredSeqOf (NetData.kCommTlv ++ bs.flatten) == some 2)) = true := by
  refine ⟨?_, by decide, by decide⟩
  intro es out h256 hout
  rcases es with _ | ⟨e, rest⟩
  · cases hout
  · unfold NetData.findPreferredAnycastInfo at hout
    dsimp only at hout
    by_cases hall : ((e :: rest).all (fun i =>
        i.seqNum == (rest.foldl NetData.scanStep ⟨e, e⟩).best.seqNum ||
        NetData.isGreaterSerial (rest.foldl NetData.scanStep ⟨e, e⟩).best.seqNum i.seqNum))
        = true
    · rw [if_pos hall] at hout
      left
      have hbest := Option.some.inj hout
      intro x hx
      have hx256 := h256 x hx
      have hcase : (x.seqNum == (rest.foldl NetData.scanStep ⟨e, e⟩).best.seqNum ||
          NetData.isGreaterSerial (rest.foldl NetData.scanStep ⟨e, e⟩).best.seqNum x.seqNum)
          = true := List.all_eq_true.1 hall x hx
      rw [hbest] at hcase
      rcases Bool.or_eq_true_iff.1 hcase with heq | hgt
      · have heq' : x.seqNum = out.seqNum := by simpa using heq
        unfold NetData.specInFrontOf
        simp only [decide_eq_false_iff_not]
        omega
      · unfold NetData.isGreaterSerial at hgt
        have hgt' : out.seqNum ≠ x.seqNum ∧ (out.seqNum + 256 - x.seqNum) % 256 < 128 := by
          simpa using hgt
        unfold NetData.specInFrontOf
        simp only [decide_eq_false_iff_not]
        omega
    · rw [if_neg hall] at hout
      right
      have hmax := Option.some.inj hout
      intro x hx
      have h := NetData.foldl_scanStep_maxNum_ge rest ⟨e, e⟩
      rw [hmax] at h
      rcases List.mem_cons.1 hx with rfl | hxs
      · exact h.1
      · exact h.2 x hxs

/-- Instantiation of the amended selection theorem on the entries of the
sixth selection test buffer. -/
theorem c4_circular_selection_amended_witness :
    (∀ x ∈ NetData.anycastInfoList NetData.kNetworkData6,
       NetData.specInFrontOf x.seqNum
         (NetData.AnycastInfo.mk 250 0 0x5000).seqNum = false) ∨
    (∀ x ∈ NetData.anycastInfoList NetData.kNetworkData6,
       x.seqNum ≤ (NetData.AnycastInfo.mk 250 0 0x5000).seqNum) :=
  c4_circular_selection_amended.1 (NetData.anycastInfoList NetData.kNetworkData6)
    ⟨250, 0, 0x5000⟩ (by decide) (by decide)

/-- C3 counterexample: the first iterator test buffer holds an unknown TLV,
then three malformed Prefix TLVs (declared prefix length 129, a one byte
value, and no prefix bytes), then a valid Prefix TLV; the walker emits the
two route entries of the final TLV, located after the malformed ones, and
does not stop at the first malformed TLV as the claim states. -/
theorem c3_walker_counterexample :
    (NetData.parseTlvs NetData.kNetworkDataIter1).map
        (fun t => (NetData.tlvType t.1, t.2.take 2)) =
      [(127, [0x01, 0x02]), (1, [0x00, 0x81]), (1, [0x00]), (1, [0x00, 0x40]),
       (1, [0x00, 0x40])] ∧
    (NetData.externalRouteList NetData.kNetworkDataIter1).map (fun r => r.rloc16) =
      [0xc800, 0x5400] := by decide

/-- C3 amended: the walker never reads past a TLV whose declared length
exceeds the remaining buffer (iteration stops there), skips a top level TLV
that is not a Prefix TLV using its declared length, skips a malformed Prefix
TLV the same way without emitting anything from inside it, and on the first
iterator test buffer emits exactly the two entries of the final valid Prefix
TLV, none of the entries inside the malformed TLVs. -/
theorem c3_walker_amended :
    (∀ (b0 b1 : Nat) (rest : List Nat), rest.length < b1 →
       NetData.parseTlvs (b0 :: b1 :: rest) = []) ∧
    (∀ (b0 b1 : Nat) (rest : List Nat), b1 ≤ rest.length → NetData.tlvType b0 ≠ 1 →
       NetData.externalRouteList (b0 :: b1 :: rest) =
         NetData.externalRouteList (rest.drop b1)) ∧
    (∀ (b0 b1 : Nat) (rest : List Nat), b1 ≤ rest.length → NetData.tlvType b0 = 1 →
       NetData.prefixTlvRoutes (rest.take b1) = [] →
       NetData.externalRouteList (b0 :: b1 :: rest) =
         NetData.externalRouteList (rest.drop b1)) ∧
    NetData.externalRouteList NetData.kNetworkDataIter1 =
      [{ pfx := [0xFD, 0x00, 0x12, 0x34, 0x00, 0x00, 0x00, 0x00], pfxLen := 64,
         rloc16 := 0xc800, preference := 1, nat64 := false, advPio := false, stable := false },
       { pfx := [0xFD, 0x00, 0x12, 0x34, 0x00, 0x00, 0x00, 0x00], pfxLen := 64,
         rloc16 := 0x5400, preference := 0, nat64 := false, advPio := false,
         stable := true }] := by
  refine ⟨?_, ?_, ?_, by decide⟩
  · intro b0 b1 rest hlen
    rw [NetData.parseTlvs_cons, if_neg (by omega)]
  · intro b0 b1 rest hlen htype
    unfold NetData.externalRouteList
    rw [NetData.parseTlvs_cons, if_pos hlen]
    simp only [List.flatMap_cons]
    have : (NetData.tlvType b0 == 1) = false := by
      simp only [beq_eq_false_iff_ne, ne_eq]
      exact htype
    rw [this]
    simp
  · intro b0 b1 rest hlen htype hmal
    unfold NetData.externalRouteList
    rw [NetData.parseTlvs_cons, if_pos hlen]
    simp only [List.flatMap_cons]
    have : (NetData.tlvType b0 == 1) = true := by simpa using htype
    rw [this]
    simp [hmal]

/-- Instantiation of the amended walker theorem: a TLV whose declared length
overruns the buffer stops the walk, and an unknown type TLV is skipped using
its declared length. -/
theorem c3_walker_amended_witness :
    NetData.parseTlvs [0x03, 0xff, 0x00] = [] ∧
    NetData.externalRouteList
        (0xff :: 0x03 :: [0x01, 0x02, 0x03, 0x03, 0x02, 0x00, 0x40]) =
      NetData.externalRouteList ([0x01, 0x02, 0x03, 0x03, 0x02, 0x00, 0x40].drop 3) :=
  ⟨c3_walker_amended.1 0x03 0xff [0x00] (by decide),
   c3_walker_amended.2.1 0xff 0x03 [0x01, 0x02, 0x03, 0x03, 0x02, 0x00, 0x40]
     (by decide) (by decide)⟩

namespace Sender

/-- Adding a child index to a message mask makes the mask hold it. -/
theorem maskHas_maskAdd (m : Msg) (ci : Nat) : maskHas (maskAdd m ci) ci = true := by
  unfold maskAdd
  split
  · assumption
  · simp [maskHas]

/-- Mask updates keep the message identity. -/
theorem mid_maskAdd (m : Msg) (ci : Nat) : (maskAdd m ci).mid = m.mid := by
  unfold maskAdd
  split <;> rfl

/-- A message update respecting identities leaves the identity image of the
queue unchanged. -/
theorem map_mid_updateMsg (q : List Msg) (i : Nat) (f : Msg → Msg)
    (hf : ∀ m, (f m).mid = m.mid) : (updateMsg q i f).map Msg.mid = q.map Msg.mid := by
  induction q with
  | nil => rfl
  | cons m rest ih =>
    unfold updateMsg
    split
    · simp [hf]
    · simp [ih]

/-- Lookup after an identity respecting update of the same message. -/
theorem getMsg_updateMsg_self (q : List Msg) (i : Nat) (f : Msg → Msg)
    (hf : ∀ m, (f m).mid = m.mid) :
    getMsg (updateMsg q i f) i = (getMsg q i).map f := by
  induction q with
  | nil => rfl
  | cons m rest ih =>
    unfold updateMsg
    by_cases h : (m.mid == i) = true
    · rw [if_pos h]
      unfold getMsg
      rw [if_pos (by rw [hf]; exact h), if_pos h]
      rfl
    · rw [if_neg h]
      unfold getMsg
      rw [if_neg h, if_neg h]
      exact ih

/-- Lookup of a different message after an identity respecting update. -/
theorem getMsg_updateMsg_other (q : List Msg) (i j : Nat) (f : Msg → Msg)
    (hf : ∀ m, (f m).mid = m.mid) (hne : i ≠ j) :
    getMsg (updateMsg q j f) i = getMsg q i := by
  induction q with
  | nil => rfl
  | cons m rest ih =>
    unfold updateMsg
    by_cases h : (m.mid == j) = true
    · have hmj : m.mid = j := by simpa using h
      have hmi : (m.mid == i) = false := by simp [hmj, Ne.symm hne]
      rw [if_pos h]
      unfold getMsg
      rw [if_neg (by rw [hf]; simp [hmi]), if_neg (by simp [hmi])]
    · rw [if_neg h]
      unfold getMsg
      by_cases hmi : (m.mid == i) = true
      · rw [if_pos hmi, if_pos hmi]
      · rw [if_neg hmi, if_neg hmi]
        exact ih

/-- There is a queued message with the requested identity exactly when the
lookup succeeds. -/
theorem getMsg_isSome_of_mem (q : List Msg) (i : Nat) (h : ∃ m ∈ q, m.mid = i) :
    ∃ m, getMsg q i = some m := by
  rcases h with ⟨m, hm, hmid⟩
  induction q with
  | nil => cases hm
  | cons a rest ih =>
    unfold getMsg
    by_cases ha : (a.mid == i) = true
    · exact ⟨a, by rw [if_pos ha]⟩
    · rcases List.mem_cons.1 hm with rfl | hrest
      · simp [hmid] at ha
      · rw [if_neg ha]
        exact ih hrest

/-- A successful lookup returns a queued message with that identity. -/
theorem getMsg_mem (q : List Msg) (i : Nat) (m : Msg) (h : getMsg q i = some m) :
    m ∈ q ∧ m.mid = i := by
  induction q with
  | nil => cases h
  | cons a rest ih =>
    unfold getMsg at h
    by_cases ha : (a.mid == i) = true
    · rw [if_pos ha] at h
      rcases Option.some.inj h with rfl
      exact ⟨List.mem_cons_self _ _, by simpa using ha⟩
    · rw [if_neg ha] at h
      rcases ih h with ⟨h1, h2⟩
      exact ⟨List.mem_cons_of_mem _ h1, h2⟩

/-- After setting the mask bit of a queued message, the queue level mask
test for that message and child holds. -/
theorem queueMaskHas_updateMsg_maskAdd (q : List Msg) (i ci : Nat)
    (h : ∃ m ∈ q, m.mid = i) :
    queueMaskHas (updateMsg q i (fun m => maskAdd m ci)) i ci = true := by
  rcases getMsg_isSome_of_mem q i h with ⟨m, hm⟩
  unfold queueMaskHas
  rw [getMsg_updateMsg_self _ _ _ (fun m => mid_maskAdd m ci), hm]
  exact maskHas_maskAdd m ci

/-- An identity respecting update of another message does not change the
queue level mask test. -/
theorem queueMaskHas_updateMsg_other (q : List Msg) (i j ci : Nat) (f : Msg → Msg)
    (hf : ∀ m, (f m).mid = m.mid) (hne : i ≠ j) :
    queueMaskHas (updateMsg q j f) i ci = queueMaskHas q i ci := by
  unfold queueMaskHas
  rw [getMsg_updateMsg_other q i j f hf hne]

/-- Removing another message from the queue does not change the queue level
mask test. -/
theorem queueMaskHas_removeMsg_other (q : List Msg) (sid i ci : Nat) (hne : sid ≠ i) :
    queueMaskHas (removeMsgIfNoPendingTx q sid) i ci = queueMaskHas q i ci := by
  unfold queueMaskHas removeMsgIfNoPendingTx
  induction q with
  | nil => rfl
  | cons m rest ih =>
    simp only [List.filter_cons]
    by_cases hkeep : (!(m.mid == sid && m.childMask.isEmpty && !m.directTx)) = true
    · rw [if_pos hkeep]
      unfold getMsg
      by_cases hmi : (m.mid == i) = true
      · rw [if_pos hmi, if_pos hmi]
      · rw [if_neg hmi, if_neg hmi]
        exact ih
    · rw [if_neg hkeep]
      have hx : (m.mid == sid && m.childMask.isEmpty && !m.directTx) = true := by
        revert hkeep
        cases m.mid == sid && m.childMask.isEmpty && !m.directTx <;> simp
      have hmid : m.mid = sid := by
        rw [Bool.and_eq_true, Bool.and_eq_true] at hx
        simpa using hx.1.1
      conv_rhs => unfold getMsg
      rw [if_neg (by simp [hmid, hne])]
      exact ih

end Sender

namespace Sender

/-- A message update request never touches the send queue. -/
theorem requestMessageUpdate_sendQueue (s : SenderState) (ci : Nat) :
    (requestMessageUpdate s ci).sendQueue = s.sendQueue := by
  simp only [requestMessageUpdate, updateIndirectMessage, updateChild, requestFrame]
  repeat' split
  all_goals rfl

/-- The send queue after removing a message from a sleepy child: either
unchanged (the mask bit was already clear) or with the mask bit of that
message cleared. -/
theorem removeMessage_sendQueue (s : SenderState) (sid ci : Nat) :
    (removeMessageFromSleepyChild s sid ci).1.sendQueue = s.sendQueue ∨
    (removeMessageFromSleepyChild s sid ci).1.sendQueue =
      updateMsg s.sendQueue sid (fun m => maskRemove m ci) := by
  unfold removeMessageFromSleepyChild
  split
  · left; rfl
  · right
    rw [requestMessageUpdate_sendQueue]
    rfl

/-- Mask removal keeps the message identity. -/
theorem mid_maskRemove (m : Msg) (ci : Nat) : (maskRemove m ci).mid = m.mid := rfl

/-- When the mask bit of the message for the child is already set, adding the
message for the child is a no op. -/
theorem add_of_queueMaskHas (s : SenderState) (mid ci : Nat)
    (h : queueMaskHas s.sendQueue mid ci = true) :
    addMessageForSleepyChild s mid ci = s := by
  unfold addMessageForSleepyChild
  rw [if_pos h]

/-- A successful queued message search returns the identity of a queued
message destined to the child and accepted by the checker. -/
theorem findQueuedMessage_spec (q : List Msg) (ci : Nat) (ch : Msg → Bool) (sid : Nat)
    (h : findQueuedMessage q ci ch = some sid) :
    ∃ m ∈ q, m.mid = sid ∧ maskHas m ci = true ∧ ch m = true := by
  unfold findQueuedMessage at h
  rcases hfind : q.find? (fun m => maskHas m ci && ch m) with _ | m
  · rw [hfind] at h; cases h
  · rw [hfind] at h
    have hm := List.mem_of_find?_eq_some hfind
    have hp := List.find?_some hfind
    rw [Bool.and_eq_true] at hp
    exact ⟨m, hm, Option.some.inj h, hp.1, hp.2⟩

/-- A set queue level mask bit comes from a successful lookup. -/
theorem queueMaskHas_getMsg (q : List Msg) (i ci : Nat)
    (h : queueMaskHas q i ci = true) : ∃ m, getMsg q i = some m ∧ maskHas m ci = true := by
  unfold queueMaskHas at h
  rcases hget : getMsg q i with _ | m
  · rw [hget] at h; cases h
  · rw [hget] at h
    exact ⟨m, rfl, h⟩

/-- Removing the queued supervision message for the child, when one exists,
does not clear the queue level mask bit of a non supervision message. -/
theorem supervision_removal_keeps_mask (s2 : SenderState) (mid ci : Nat)
    (hq2 : queueMaskHas s2.sendQueue mid ci = true)
    (hnodup : (s2.sendQueue.map Msg.mid).Nodup)
    (htype : ∀ m0, getMsg s2.sendQueue mid = some m0 → m0.msgType ≠ MsgType.supervision) :
    queueMaskHas (match findQueuedMessage s2.sendQueue ci acceptSupervision with
      | some sid =>
        { (removeMessageFromSleepyChild s2 sid ci).1 with
          sendQueue := removeMsgIfNoPendingTx
            (removeMessageFromSleepyChild s2 sid ci).1.sendQueue sid }
      | none => s2).sendQueue mid ci = true := by
  split
  · rename_i sid hsid
    rcases findQueuedMessage_spec _ _ _ _ hsid with ⟨msup, hmem, hmid, _, hsup⟩
    rcases queueMaskHas_getMsg _ _ _ hq2 with ⟨m0, hget, _⟩
    have hne : sid ≠ mid := by
      intro hEq
      subst hEq
      rcases getMsg_mem _ _ _ hget with ⟨hmem0, hmid0⟩
      have heq : msup = m0 :=
        List.inj_on_of_nodup_map hnodup hmem hmem0 (by rw [hmid, hmid0])
      have : m0.msgType = MsgType.supervision := by
        rw [← heq]
        simpa [acceptSupervision] using hsup
      exact htype m0 hget this
    show queueMaskHas (removeMsgIfNoPendingTx
      (removeMessageFromSleepyChild s2 sid ci).1.sendQueue sid) mid ci = true
    rw [queueMaskHas_removeMsg_other _ _ _ _ hne]
    rcases removeMessage_sendQueue s2 sid ci with hcase | hcase
    · rw [hcase]; exact hq2
    · rw [hcase]
      rw [queueMaskHas_updateMsg_other _ _ _ _ _ (fun m => mid_maskRemove m ci)
        (fun hEq => hne hEq.symm)]
      exact hq2
  · exact hq2

/-- After AddMessageForSleepyChild the mask bit of the message for the child
is set, provided the message is queued and queue identities are unique. -/
theorem add_sets_mask (s : SenderState) (mid ci : Nat)
    (hmem : ∃ m ∈ s.sendQueue, m.mid = mid)
    (hnodup : (s.sendQueue.map Msg.mid).Nodup) :
    queueMaskHas (addMessageForSleepyChild s mid ci).sendQueue mid ci = true := by
  have hq2 : queueMaskHas (updateMsg s.sendQueue mid (fun m => maskAdd m ci)) mid ci = true :=
    queueMaskHas_updateMsg_maskAdd s.sendQueue mid ci hmem
  have hnodup2 : ((updateMsg s.sendQueue mid (fun m => maskAdd m ci)).map Msg.mid).Nodup := by
    rw [map_mid_updateMsg _ _ _ (fun m => mid_maskAdd m ci)]
    exact hnodup
  unfold addMessageForSleepyChild
  split
  · assumption
  · rw [requestMessageUpdate_sendQueue]
    split
    · rename_i hcond
      refine supervision_removal_keeps_mask _ mid ci hq2 hnodup2 ?_
      intro m0 hm0 hcontra
      rw [Bool.and_eq_true] at hcond
      have h1 : (Option.map (fun m => m.msgType)
          (getMsg (updateMsg s.sendQueue mid (fun m => maskAdd m ci)) mid) !=
            some MsgType.supervision) = true := hcond.1
      have hm0' : getMsg (updateMsg s.sendQueue mid (fun m => maskAdd m ci)) mid
          = some m0 := hm0
      rw [hm0'] at h1
      simp only [Option.map_some', bne_iff_ne, ne_eq] at h1
      exact h1 (by rw [hcontra])
    · exact hq2

end Sender

/-- C10: adding a message for a sleepy child (precondition: the child is not
rx on when idle) is idempotent: when the child bit is already set in the
message indirect transmission mask the call returns the state unchanged, and
calling it twice with the same queued message and child (with unique queue
identities) equals calling it once. -/
theorem c10_add_message_idempotent (s : Sender.SenderState) (mid ci : Nat)
    (hrx : (Sender.childAt s ci).rxOnWhenIdle = false)
    (hmem : ∃ m ∈ s.sendQueue, m.mid = mid)
    (hnodup : (s.sendQueue.map Sender.Msg.mid).Nodup) :
    (Sender.queueMaskHas s.sendQueue mid ci = true →
      Sender.addMessageForSleepyChild s mid ci = s) ∧
    Sender.addMessageForSleepyChild (Sender.addMessageForSleepyChild s mid ci) mid ci =
      Sender.addMessageForSleepyChild s mid ci := by
  refine ⟨Sender.add_of_queueMaskHas s mid ci, ?_⟩
  exact Sender.add_of_queueMaskHas _ mid ci (Sender.add_sets_mask s mid ci hmem hnodup)

/-- Instantiation of the idempotence theorem on the sample sender state. -/
theorem c10_add_message_idempotent_witness :
    Sender.addMessageForSleepyChild
        (Sender.addMessageForSleepyChild Sender.addSampleState 1 0) 1 0 =
      Sender.addMessageForSleepyChild Sender.addSampleState 1 0 :=
  (c10_add_message_idempotent Sender.addSampleState 1 0 (by decide)
    ⟨{ mid := 1, msgType := Sender.MsgType.ip6, childMask := [], directTx := false },
      by decide, rfl⟩ (by decide)).2

namespace Dhcp6

/-- A successful refresh leaves an association that covers the prefix. -/
theorem refresh_some_tracked (c : OnMeshPfxCfg) :
    ∀ (ias ias2 : List IdentityAssociation), refreshFirstTracked c ias = some ias2 →
      ∃ ia ∈ ias2, ia.status ≠ IaStatus.invalid ∧ hasPfx ia.netifAddress c = true := by
  intro ias
  induction ias with
  | nil => intro ias2 h; cases h
  | cons ia rest ih =>
    intro ias2 h
    unfold refreshFirstTracked at h
    split at h
    · rename_i hcond
      rw [Bool.and_eq_true] at hcond
      rcases Option.some.inj h with rfl
      refine ⟨{ ia with prefixAgentRloc := c.rloc16 }, List.mem_cons_self _ _, ?_, hcond.2⟩
      simpa using hcond.1
    · rcases hrec : refreshFirstTracked c rest with _ | l
      · rw [hrec] at h; cases h
      · rw [hrec] at h
        rcases Option.some.inj h with rfl
        rcases ih l hrec with ⟨w, hw, hws, hwp⟩
        exact ⟨w, List.mem_cons_of_mem _ hw, hws, hwp⟩

/-- A successful slot initialisation leaves an association in the Solicit
state carrying the prefix, a zero lifetime and the agent RLOC16. -/
theorem init_some_slot (c : OnMeshPfxCfg) :
    ∀ (ias ias2 : List IdentityAssociation), initFirstInvalid c ias = some ias2 →
      ∃ ia ∈ ias2, ia.status = IaStatus.solicit ∧ ia.validLifetime = 0 ∧
        ia.prefixAgentRloc = c.rloc16 ∧ ia.netifAddress.addrBits = c.pfxBits ∧
        ia.netifAddress.pfxLen = c.pfxLen := by
  intro ias
  induction ias with
  | nil => intro ias2 h; cases h
  | cons ia rest ih =>
    intro ias2 h
    unfold initFirstInvalid at h
    split at h
    · rcases Option.some.inj h with rfl
      exact ⟨_, List.mem_cons_self _ _, rfl, rfl, rfl, rfl, rfl⟩
    · rcases hrec : initFirstInvalid c rest with _ | l
      · rw [hrec] at h; cases h
      · rw [hrec] at h
        rcases Option.some.inj h with rfl
        rcases ih l hrec with ⟨w, hw, hp⟩
        exact ⟨w, List.mem_cons_of_mem _ hw, hp⟩

/-- A successful slot initialisation leaves an association that covers the
prefix. -/
theorem init_some_tracked (c : OnMeshPfxCfg) (ias ias2 : List IdentityAssociation)
    (h : initFirstInvalid c ias = some ias2) :
    ∃ ia ∈ ias2, ia.status ≠ IaStatus.invalid ∧ hasPfx ia.netifAddress c = true := by
  rcases init_some_slot c ias ias2 h with ⟨ia, hmem, hst, _, _, hbits, _⟩
  refine ⟨ia, hmem, by simp [hst], ?_⟩
  unfold hasPfx
  rw [hbits]
  simp

/-- When no slot is free every association is in use. -/
theorem init_none_all_used (c : OnMeshPfxCfg) :
    ∀ (ias : List IdentityAssociation), initFirstInvalid c ias = none →
      ∀ ia ∈ ias, ia.status ≠ IaStatus.invalid := by
  intro ias
  induction ias with
  | nil => intro _ ia h; cases h
  | cons ia rest ih =>
    intro h w hw
    unfold initFirstInvalid at h
    split at h
    · cases h
    · rename_i hcond
      rcases List.mem_cons.1 hw with rfl | hrest
      · simpa using hcond
      · rcases hrec : initFirstInvalid c rest with _ | l
        · exact ih hrec w hrest
        · rw [hrec] at h; cases h

/-- The refresh operation preserves coverage of any prefix and absence of
free slots. -/
theorem refresh_preserves (c c0 : OnMeshPfxCfg) :
    ∀ (ias ias2 : List IdentityAssociation), refreshFirstTracked c ias = some ias2 →
      ((∃ ia ∈ ias, ia.status ≠ IaStatus.invalid ∧ hasPfx ia.netifAddress c0 = true) →
        ∃ ia ∈ ias2, ia.status ≠ IaStatus.invalid ∧ hasPfx ia.netifAddress c0 = true) ∧
      ((∀ ia ∈ ias, ia.status ≠ IaStatus.invalid) →
        ∀ ia ∈ ias2, ia.status ≠ IaStatus.invalid) := by
  intro ias
  induction ias with
  | nil => intro ias2 h; cases h
  | cons ia rest ih =>
    intro ias2 h
    unfold refreshFirstTracked at h
    split at h
    · rcases Option.some.inj h with rfl
      constructor
      · rintro ⟨w, hw, hws, hwp⟩
        rcases List.mem_cons.1 hw with rfl | hrest
        · exact ⟨{ w with prefixAgentRloc := c.rloc16 }, List.mem_cons_self _ _, hws, hwp⟩
        · exact ⟨w, List.mem_cons_of_mem _ hrest, hws, hwp⟩
      · intro hall w hw
        rcases List.mem_cons.1 hw with rfl | hrest
        · exact hall ia (List.mem_cons_self _ _)
        · exact hall w (List.mem_cons_of_mem _ hrest)
    · rcases hrec : refreshFirstTracked c rest with _ | l
      · rw [hrec] at h; cases h
      · rw [hrec] at h
        rcases Option.some.inj h with rfl
        constructor
        · rintro ⟨w, hw, hws, hwp⟩
          rcases List.mem_cons.1 hw with rfl | hrest
          · exact ⟨w, List.mem_cons_self _ _, hws, hwp⟩
          · rcases (ih l hrec).1 ⟨w, hrest, hws, hwp⟩ with ⟨v, hv, hvp⟩
            exact ⟨v, List.mem_cons_of_mem _ hv, hvp⟩
        · intro hall w hw
          rcases List.mem_cons.1 hw with rfl | hrest
          · exact hall w (List.mem_cons_self _ _)
          · exact (ih l hrec).2 (fun v hv => hall v (List.mem_cons_of_mem _ hv)) w hrest

/-- The slot initialisation preserves coverage of any prefix and absence of
free slots. -/
theorem init_preserves (c c0 : OnMeshPfxCfg) :
    ∀ (ias ias2 : List IdentityAssociation), initFirstInvalid c ias = some ias2 →
      ((∃ ia ∈ ias, ia.status ≠ IaStatus.invalid ∧ hasPfx ia.netifAddress c0 = true) →
        ∃ ia ∈ ias2, ia.status ≠ IaStatus.invalid ∧ hasPfx ia.netifAddress c0 = true) ∧
      ((∀ ia ∈ ias, ia.status ≠ IaStatus.invalid) →
        ∀ ia ∈ ias2, ia.status ≠ IaStatus.invalid) := by
  intro ias
  induction ias with
  | nil => intro ias2 h; cases h
  | cons ia rest ih =>
    intro ias2 h
    unfold initFirstInvalid at h
    split at h
    · rename_i hcond
      have hinv : ia.status = IaStatus.invalid := by simpa using hcond
      rcases Option.some.inj h with rfl
      constructor
      · rintro ⟨w, hw, hws, hwp⟩
        rcases List.mem_cons.1 hw with rfl | hrest
        · exact absurd hinv hws
        · exact ⟨w, List.mem_cons_of_mem _ hrest, hws, hwp⟩
      · intro hall
        exact absurd hinv (hall ia (List.mem_cons_self _ _))
    · rcases hrec : initFirstInvalid c rest with _ | l
      · rw [hrec] at h; cases h
      · rw [hrec] at h
        rcases Option.some.inj h with rfl
        constructor
        · rintro ⟨w, hw, hws, hwp⟩
          rcases List.mem_cons.1 hw with rfl | hrest
          · exact ⟨w, List.mem_cons_self _ _, hws, hwp⟩
          · rcases (ih l hrec).1 ⟨w, hrest, hws, hwp⟩ with ⟨v, hv, hvp⟩
            exact ⟨v, List.mem_cons_of_mem _ hv, hvp⟩
        · intro hall w hw
          rcases List.mem_cons.1 hw with rfl | hrest
          · exact hall w (List.mem_cons_self _ _)
          · exact (ih l hrec).2 (fun v hv => hall v (List.mem_cons_of_mem _ hv)) w hrest

/-- One addition step preserves coverage of any prefix and absence of free
slots. -/
theorem addOne_preserves (c0 c : OnMeshPfxCfg) (ias : List IdentityAssociation) :
    ((∃ ia ∈ ias, ia.status ≠ IaStatus.invalid ∧ hasPfx ia.netifAddress c0 = true) →
      ∃ ia ∈ updateAddressesAddOne ias c,
        ia.status ≠ IaStatus.invalid ∧ hasPfx ia.netifAddress c0 = true) ∧
    ((∀ ia ∈ ias, ia.status ≠ IaStatus.invalid) →
      ∀ ia ∈ updateAddressesAddOne ias c, ia.status ≠ IaStatus.invalid) := by
  unfold updateAddressesAddOne
  split
  · exact ⟨id, id⟩
  · rcases href : refreshFirstTracked c ias with _ | l
    · rcases hinit : initFirstInvalid c ias with _ | l2
      · exact ⟨id, id⟩
      · exact init_preserves c c0 ias l2 hinit
    · exact refresh_preserves c c0 ias l href

/-- One addition step on a dhcp flagged prefix leaves the prefix covered or
every slot in use. -/
theorem addOne_establishes (c : OnMeshPfxCfg) (ias : List IdentityAssociation)
    (hd : c.dhcp = true) :
    (∃ ia ∈ updateAddressesAddOne ias c,
       ia.status ≠ IaStatus.invalid ∧ hasPfx ia.netifAddress c = true) ∨
    (∀ ia ∈ updateAddressesAddOne ias c, ia.status ≠ IaStatus.invalid) := by
  unfold updateAddressesAddOne
  rw [if_neg (by simp [hd])]
  rcases href : refreshFirstTracked c ias with _ | l
  · rcases hinit : initFirstInvalid c ias with _ | l2
    · exact Or.inr (init_none_all_used c ias hinit)
    · exact Or.inl (init_some_tracked c ias l2 hinit)
  · exact Or.inl (refresh_some_tracked c ias l href)

/-- The addition fold preserves coverage of any prefix and absence of free
slots. -/
theorem addFold_preserves (c0 : OnMeshPfxCfg) :
    ∀ (pfxs : List OnMeshPfxCfg) (ias : List IdentityAssociation),
      ((∃ ia ∈ ias, ia.status ≠ IaStatus.invalid ∧ hasPfx ia.netifAddress c0 = true) →
        ∃ ia ∈ pfxs.foldl updateAddressesAddOne ias,
          ia.status ≠ IaStatus.invalid ∧ hasPfx ia.netifAddress c0 = true) ∧
      ((∀ ia ∈ ias, ia.status ≠ IaStatus.invalid) →
        ∀ ia ∈ pfxs.foldl updateAddressesAddOne ias, ia.status ≠ IaStatus.invalid) := by
  intro pfxs
  induction pfxs with
  | nil => intro ias; exact ⟨id, id⟩
  | cons c rest ih =>
    intro ias
    constructor
    · intro hP
      exact (ih (updateAddressesAddOne ias c)).1 ((addOne_preserves c0 c ias).1 hP)
    · intro hQ
      exact (ih (updateAddressesAddOne ias c)).2 ((addOne_preserves c0 c ias).2 hQ)

/-- After folding the addition pass over the prefixes, every dhcp flagged
prefix is covered by a live association, unless every slot is in use. -/
theorem addFold_establishes :
    ∀ (pfxs : List OnMeshPfxCfg) (ias : List IdentityAssociation) (c : OnMeshPfxCfg),
      c ∈ pfxs → c.dhcp = true →
      (∃ ia ∈ pfxs.foldl updateAddressesAddOne ias,
         ia.status ≠ IaStatus.invalid ∧ hasPfx ia.netifAddress c = true) ∨
      (∀ ia ∈ pfxs.foldl updateAddressesAddOne ias, ia.status ≠ IaStatus.invalid) := by
  intro pfxs
  induction pfxs with
  | nil => intro ias c h; cases h
  | cons p rest ih =>
    intro ias c hc hd
    rcases List.mem_cons.1 hc with rfl | hrest
    · rcases addOne_establishes c ias hd with hP | hQ
      · exact Or.inl ((addFold_preserves c rest (updateAddressesAddOne ias c)).1 hP)
      · exact Or.inr ((addFold_preserves c rest (updateAddressesAddOne ias c)).2 hQ)
    · exact ih (updateAddressesAddOne ias p) c hrest hd

end Dhcp6

namespace Dhcp6

/-- When no live association covers the prefix the refresh finds nothing. -/
theorem refresh_none_of_untracked (c : OnMeshPfxCfg) :
    ∀ (ias : List IdentityAssociation),
      (∀ ia ∈ ias, ia.status ≠ IaStatus.invalid → hasPfx ia.netifAddress c = false) →
      refreshFirstTracked c ias = none := by
  intro ias
  induction ias with
  | nil => intro _; rfl
  | cons ia rest ih =>
    intro h
    unfold refreshFirstTracked
    rw [if_neg, ih (fun v hv => h v (List.mem_cons_of_mem _ hv))]
    · rfl
    · intro hcond
      rw [Bool.and_eq_true] at hcond
      have hs : ia.status ≠ IaStatus.invalid := by simpa using hcond.1
      rw [h ia (List.mem_cons_self _ _) hs] at hcond
      exact Bool.false_ne_true hcond.2

/-- With a free (invalid) slot present the slot initialisation succeeds. -/
theorem init_isSome_of_free (c : OnMeshPfxCfg) :
    ∀ (ias : List IdentityAssociation),
      (∃ ia ∈ ias, ia.status = IaStatus.invalid) →
      (initFirstInvalid c ias).isSome = true := by
  intro ias
  induction ias with
  | nil => rintro ⟨_, h, _⟩; cases h
  | cons ia rest ih =>
    rintro ⟨w, hw, hws⟩
    unfold initFirstInvalid
    by_cases hinv : ia.status = IaStatus.invalid
    · rw [if_pos (by simp [hinv])]; rfl
    · rw [if_neg (by simp [hinv])]
      rcases List.mem_cons.1 hw with rfl | hrest
      · exact absurd hws hinv
      · rcases hrec : initFirstInvalid c rest with _ | l
        · simpa [hrec] using ih ⟨w, hrest, hws⟩
        · rfl

/-- An association holding a lease whose prefix is covered by no dhcp
flagged on mesh prefix is invalidated and its address scheduled for
removal. -/
theorem removeOne_removes (pfxs : List OnMeshPfxCfg) (ia : IdentityAssociation)
    (h1 : ia.status ≠ IaStatus.invalid) (h2 : ia.validLifetime ≠ 0)
    (h3 : ∀ c ∈ pfxs, c.dhcp = true → hasPfx ia.netifAddress c = false) :
    updateAddressesRemoveOne pfxs ia =
      ({ ia with status := IaStatus.invalid }, some ia.netifAddress) := by
  have hc2 : pfxs.any (fun c => c.dhcp && hasPfx ia.netifAddress c) = false := by
    rw [List.any_eq_false]
    intro c hc
    cases hd : c.dhcp
    · simp
    · simp [h3 c hc hd]
  unfold updateAddressesRemoveOne
  rw [if_neg (by simp [h1, h2]), if_neg (by simp [hc2])]

/-- ProcessNextIdentityAssociation touches neither the association list nor
the netif removal log, the netif addition log or the socket. -/
theorem pnia_fields (s : ClientState) (ft : Nat) :
    (processNextIdentityAssociation s ft).1.ias = s.ias ∧
    (processNextIdentityAssociation s ft).1.netifRemoved = s.netifRemoved ∧
    (processNextIdentityAssociation s ft).1.socketBound = s.socketBound := by
  simp only [processNextIdentityAssociation]
  repeat' split
  all_goals exact ⟨rfl, rfl, rfl⟩

/-- Client::Start leaves the association list and the removal log alone and
leaves the socket bound. -/
theorem clientStart_fields (s : ClientState) (ft : Nat) :
    (clientStart s ft).ias = s.ias ∧
    (clientStart s ft).netifRemoved = s.netifRemoved ∧
    (clientStart s ft).socketBound = true := by
  unfold clientStart
  split
  · rename_i hb; exact ⟨rfl, rfl, hb⟩
  · exact ⟨(pnia_fields _ _).1, (pnia_fields _ _).2.1, (pnia_fields _ _).2.2⟩

/-- The three observable components of UpdateAddresses: the association
list is the addition fold over the removal pass, the removal log collects
every removed address, and the socket ends bound exactly when some dhcp
flagged prefix exists. -/
theorem updateAddresses_fields (s : ClientState) (pfxs : List OnMeshPfxCfg) (ft : Nat) :
    (updateAddresses s pfxs ft).ias =
      pfxs.foldl updateAddressesAddOne
        ((s.ias.map (updateAddressesRemoveOne pfxs)).map Prod.fst) ∧
    (updateAddresses s pfxs ft).netifRemoved =
      s.netifRemoved ++ (s.ias.map (updateAddressesRemoveOne pfxs)).filterMap Prod.snd ∧
    (updateAddresses s pfxs ft).socketBound = pfxs.any (fun c => c.dhcp) := by
  unfold updateAddresses
  split
  · rename_i h
    refine ⟨(clientStart_fields _ _).1, (clientStart_fields _ _).2.1, ?_⟩
    rw [(clientStart_fields _ _).2.2, h]
  · rename_i h
    have hb : pfxs.any (fun c => c.dhcp) = false := by
      cases hv : pfxs.any (fun c => c.dhcp)
      · rfl
      · exact absurd hv h
    rw [hb]
    exact ⟨rfl, rfl, rfl⟩

end Dhcp6

/-- C6: on a network data changed event the client runs the removal pass —
every association with a lease whose address is covered by no dhcp flagged
on mesh prefix is invalidated and its address logged as removed from the
netif — and the addition pass — after the fold every dhcp flagged prefix
of the store is covered by a live association unless every slot is in use,
and a dhcp flagged prefix covered by no live association claims a free
slot, setting it to Solicit with a zero lifetime, the prefix bits and the
prefix agent RLOC16 — and finally the socket ends bound exactly when some
dhcp flagged prefix exists (Start on some, Stop on none). -/
theorem c6_update_addresses (s : Dhcp6.ClientState) (pfxs : List Dhcp6.OnMeshPfxCfg) (ft : Nat) :
    (∀ ia ∈ s.ias, ia.status ≠ Dhcp6.IaStatus.invalid → ia.validLifetime ≠ 0 →
       (∀ c ∈ pfxs, c.dhcp = true → Dhcp6.hasPfx ia.netifAddress c = false) →
       Dhcp6.updateAddressesRemoveOne pfxs ia =
         ({ ia with status := Dhcp6.IaStatus.invalid }, some ia.netifAddress) ∧
       ia.netifAddress ∈ (Dhcp6.updateAddresses s pfxs ft).netifRemoved) ∧
    (∀ c ∈ pfxs, c.dhcp = true →
       (∃ ia ∈ (Dhcp6.updateAddresses s pfxs ft).ias,
          ia.status ≠ Dhcp6.IaStatus.invalid ∧ Dhcp6.hasPfx ia.netifAddress c = true) ∨
       (∀ ia ∈ (Dhcp6.updateAddresses s pfxs ft).ias, ia.status ≠ Dhcp6.IaStatus.invalid)) ∧
    (∀ (c : Dhcp6.OnMeshPfxCfg) (ias : List Dhcp6.IdentityAssociation), c.dhcp = true →
       (∀ ia ∈ ias, ia.status ≠ Dhcp6.IaStatus.invalid →
          Dhcp6.hasPfx ia.netifAddress c = false) →
       (∃ ia ∈ ias, ia.status = Dhcp6.IaStatus.invalid) →
       ∃ ia ∈ Dhcp6.updateAddressesAddOne ias c,
         ia.status = Dhcp6.IaStatus.solicit ∧ ia.validLifetime = 0 ∧
         ia.prefixAgentRloc = c.rloc16 ∧ ia.netifAddress.addrBits = c.pfxBits ∧
         ia.netifAddress.pfxLen = c.pfxLen) ∧
    (Dhcp6.updateAddresses s pfxs ft).socketBound = pfxs.any (fun c => c.dhcp) := by
  refine ⟨?_, ?_, ?_, (Dhcp6.updateAddresses_fields s pfxs ft).2.2⟩
  · intro ia hmem h1 h2 h3
    have hrem := Dhcp6.removeOne_removes pfxs ia h1 h2 h3
    refine ⟨hrem, ?_⟩
    rw [(Dhcp6.updateAddresses_fields s pfxs ft).2.1]
    refine List.mem_append_right _ ?_
    rw [List.mem_filterMap]
    refine ⟨Dhcp6.updateAddressesRemoveOne pfxs ia, List.mem_map_of_mem _ hmem, ?_⟩
    rw [hrem]
  · intro c hc hd
    rw [(Dhcp6.updateAddresses_fields s pfxs ft).1]
    exact Dhcp6.addFold_establishes pfxs _ c hc hd
  · intro c ias hd huncov hfree
    unfold Dhcp6.updateAddressesAddOne
    rw [if_neg (by simp [hd]), Dhcp6.refresh_none_of_untracked c ias huncov]
    rcases hinit : Dhcp6.initFirstInvalid c ias with _ | l
    · have := Dhcp6.init_isSome_of_free c ias hfree
      rw [hinit] at this
      cases this
    · exact Dhcp6.init_some_slot c ias l hinit

/-- Witness for C6 on a client holding one stale lease and one free slot,
with a single dhcp flagged prefix in the store. -/
theorem c6_update_addresses_witness :
    (Dhcp6.updateAddressesRemoveOne [Dhcp6.sampleDhcpPfx] Dhcp6.staleLeaseIa =
       ({ Dhcp6.staleLeaseIa with status := Dhcp6.IaStatus.invalid },
        some Dhcp6.staleLeaseIa.netifAddress) ∧
     Dhcp6.staleLeaseIa.netifAddress ∈
       (Dhcp6.updateAddresses Dhcp6.netDataChangeClient [Dhcp6.sampleDhcpPfx] 7).netifRemoved) ∧
    (∃ ia ∈ Dhcp6.updateAddressesAddOne [Dhcp6.freeSlotIa] Dhcp6.sampleDhcpPfx,
       ia.status = Dhcp6.IaStatus.solicit ∧ ia.validLifetime = 0 ∧
       ia.prefixAgentRloc = Dhcp6.sampleDhcpPfx.rloc16 ∧
       ia.netifAddress.addrBits = Dhcp6.sampleDhcpPfx.pfxBits ∧
       ia.netifAddress.pfxLen = Dhcp6.sampleDhcpPfx.pfxLen) ∧
    (Dhcp6.updateAddresses Dhcp6.netDataChangeClient [Dhcp6.sampleDhcpPfx] 7).socketBound =
      List.any [Dhcp6.sampleDhcpPfx] (fun c => c.dhcp) := by
  have h := c6_update_addresses Dhcp6.netDataChangeClient [Dhcp6.sampleDhcpPfx] 7
  exact ⟨h.1 Dhcp6.staleLeaseIa (by decide) (by decide) (by decide) (by decide),
         h.2.2.1 Dhcp6.sampleDhcpPfx [Dhcp6.freeSlotIa] (by decide) (by decide)
           ⟨Dhcp6.freeSlotIa, by decide, by decide⟩,
         h.2.2.2⟩

namespace Dhcp6

/-- With no Server Identifier option the Reply is dropped. -/
theorem guard_noServerId (s : ClientState) (opts : List Dhcp6Opt) (now ft : Nat)
    (h : findOpt opts 2 = none) : processReplyGuarded s opts now ft = s := by
  unfold processReplyGuarded
  rw [h]

/-- With an invalid Server Identifier option the Reply is dropped. -/
theorem guard_badServerId (s : ClientState) (opts : List Dhcp6Opt) (now ft : Nat)
    (sid : Dhcp6Opt) (h : findOpt opts 2 = some sid) (hs : serverIdOk sid = false) :
    processReplyGuarded s opts now ft = s := by
  unfold processReplyGuarded
  rw [h]
  simp [hs]

/-- With no Client Identifier option the Reply is dropped. -/
theorem guard_noClientId (s : ClientState) (opts : List Dhcp6Opt) (now ft : Nat)
    (h : findOpt opts 1 = none) : processReplyGuarded s opts now ft = s := by
  unfold processReplyGuarded
  rcases h2 : findOpt opts 2 with _ | sid
  · rfl
  · by_cases hs : serverIdOk sid
    · simp [hs, h]
    · simp [hs]

/-- With a Client Identifier option that does not echo this node EUI-64 the
Reply is dropped. -/
theorem guard_badClientId (s : ClientState) (opts : List Dhcp6Opt) (now ft : Nat)
    (cid : Dhcp6Opt) (h : findOpt opts 1 = some cid) (hc : clientIdOk s.eui64 cid = false) :
    processReplyGuarded s opts now ft = s := by
  unfold processReplyGuarded
  rcases h2 : findOpt opts 2 with _ | sid
  · rfl
  · by_cases hs : serverIdOk sid
    · simp [hs, h, hc]
    · simp [hs]

/-- With no Rapid Commit option the Reply is dropped. -/
theorem guard_noRapidCommit (s : ClientState) (opts : List Dhcp6Opt) (now ft : Nat)
    (h : findOpt opts 14 = none) : processReplyGuarded s opts now ft = s := by
  unfold processReplyGuarded
  rcases h2 : findOpt opts 2 with _ | sid
  · rfl
  · by_cases hs : serverIdOk sid
    · rcases h1 : findOpt opts 1 with _ | cid
      · simp [hs]
      · by_cases hc : clientIdOk s.eui64 cid
        · simp [hs, hc, h]
        · simp [hs, hc]
    · simp [hs]

/-- With no IA_NA option the Reply changes nothing. -/
theorem guard_noIaNa (s : ClientState) (opts : List Dhcp6Opt) (now ft : Nat)
    (h : findOpt opts 3 = none) : processReplyGuarded s opts now ft = s := by
  unfold processReplyGuarded
  rcases h2 : findOpt opts 2 with _ | sid
  · rfl
  · by_cases hs : serverIdOk sid
    · rcases h1 : findOpt opts 1 with _ | cid
      · simp [hs]
      · by_cases hc : clientIdOk s.eui64 cid
        · by_cases h14 : (findOpt opts 14).isNone
          · simp [hs, hc, h14]
          · simp [hs, hc, h14, h]
        · simp [hs, hc]
    · simp [hs]

/-- The IA Address worker fails exactly when no tracked association matches
the address. -/
theorem applyIaAddress_none_iff (addr : List Bool) (pl vl : Nat) :
    ∀ (ias : List IdentityAssociation),
      applyIaAddress addr pl vl ias = none ↔ ∀ ia ∈ ias, iaAddrMatches ia addr = false := by
  intro ias
  induction ias with
  | nil => simp [applyIaAddress]
  | cons ia rest ih =>
    unfold applyIaAddress
    by_cases hm : iaAddrMatches ia addr
    · rw [if_pos hm]
      simp [hm]
    · rw [if_neg hm]
      rw [Option.map_eq_none', ih]
      constructor
      · intro h v hv
        rcases List.mem_cons.1 hv with rfl | hr
        · exact Bool.eq_false_iff.mpr hm
        · exact h v hr
      · intro h v hv
        exact h v (List.mem_cons_of_mem _ hv)

/-- A successful IA Address worker run updates exactly the first matching
association: the address, the lifetimes, the netif flags and the
SolicitReplied status, and the installed netif address is returned. -/
theorem applyIaAddress_some_spec (addr : List Bool) (pl vl : Nat) :
    ∀ (ias ias2 : List IdentityAssociation) (na : NetifAddr),
      applyIaAddress addr pl vl ias = some (ias2, na) →
      ∃ pre ia post, ias = pre ++ ia :: post ∧
        (∀ p ∈ pre, iaAddrMatches p addr = false) ∧
        iaAddrMatches ia addr = true ∧
        na = { addrBits := addr, pfxLen := ia.netifAddress.pfxLen, preferredFlag := pl != 0,
               validFlag := vl != 0, originDhcp6 := true } ∧
        ias2 = pre ++ ({ ia with
                         netifAddress := na
                         preferredLifetime := pl
                         validLifetime := vl
                         status := IaStatus.solicitReplied } :: post) := by
  intro ias
  induction ias with
  | nil => intro _ _ h; cases h
  | cons ia rest ih =>
    intro ias2 na h
    unfold applyIaAddress at h
    by_cases hm : iaAddrMatches ia addr
    · rw [if_pos hm] at h
      have h2 : (some
          ((({ ia with
               netifAddress := { addrBits := addr, pfxLen := ia.netifAddress.pfxLen,
                                 preferredFlag := pl != 0, validFlag := vl != 0,
                                 originDhcp6 := true }
               preferredLifetime := pl
               validLifetime := vl
               status := IaStatus.solicitReplied } : IdentityAssociation) :: rest),
           ({ addrBits := addr, pfxLen := ia.netifAddress.pfxLen, preferredFlag := pl != 0,
              validFlag := vl != 0, originDhcp6 := true } : NetifAddr)) :
          Option (List IdentityAssociation × NetifAddr)) = some (ias2, na) := h
      injection h2 with h3
      injection h3 with h4 h5
      subst h4
      subst h5
      refine ⟨[], ia, rest, rfl, ?_, hm, rfl, rfl⟩
      intro p hp
      cases hp
    · rw [if_neg hm] at h
      rcases hr : applyIaAddress addr pl vl rest with _ | r
      · rw [hr] at h; cases h
      · rw [hr] at h
        have h2 : (some ((ia :: r.1, r.2) : List IdentityAssociation × NetifAddr)) =
            some (ias2, na) := h
        injection h2 with h3
        injection h3 with h4 h5
        subst h4
        subst h5
        rcases ih r.1 r.2 (by rw [hr]) with ⟨pre, w, post, heq, hpre, hw, hna, hias2⟩
        refine ⟨ia :: pre, w, post, by rw [heq, List.cons_append], ?_, hw, hna,
                by rw [hias2, List.cons_append]⟩
        intro p hp
        rcases List.mem_cons.1 hp with rfl | hpp
        · exact Bool.eq_false_iff.mpr hm
        · exact hpre p hpp

/-- An IA Address sub option matching no association stops the IA_NA loop
with an error, keeping the updates and installs already performed. -/
theorem processIaNaSubs_stop (ias : List IdentityAssociation) (adds : List NetifAddr)
    (o : Dhcp6Opt) (rest : List Dhcp6Opt) (h5 : optCode o = 5)
    (hn : processIaAddressOption ias o = none) :
    processIaNaSubs ias adds (o :: rest) = (ias, adds, false) := by
  unfold processIaNaSubs
  rw [if_pos (by simp [h5]), hn]

end Dhcp6

/-- C5 counterexample: a Reply with matching type and transaction id whose
header options all validate carries, under IA_NA, first an IA Address
matching no association and then one matching the tracked association; the
spec's per option reading would install the second, but the client stops
the loop at the first and leaves the whole state unchanged. -/
theorem c5_reply_counterexample :
    Dhcp6.handleUdpReceive Dhcp6.sampleClient ⟨7, 9, Dhcp6.replyOptsTwoAddrs⟩ 0 0 =
      Dhcp6.sampleClient ∧
    Dhcp6.iaAddrMatches Dhcp6.sampleIa Dhcp6.insideAddr = true ∧
    Dhcp6.sampleIa.status ≠ Dhcp6.IaStatus.solicitReplied ∧
    Dhcp6.sampleClient.netifAdded = [] := by
  refine ⟨by decide, by decide, by decide, rfl⟩

/-- C5 (amended): the client acts on a received message only when its type
is Reply (7) and its transaction id matches the current one; a valid Server
Identifier, a Client Identifier echoing this node EUI-64, a Rapid Commit
option and an IA_NA option are all required, each failure leaving the
client unchanged; the IA Address sub options are then processed in order,
each updating the first tracked association without a lease whose prefix
covers the address (address bits, lifetimes, netif flags, SolicitReplied
status, installed netif address), and a sub option matching no association
stops the loop with an error, keeping the updates already made. -/
theorem c5_reply_amended :
    (∀ (s : Dhcp6.ClientState) (m : Dhcp6.ReplyMsg) (now ft : Nat),
       (m.msgType == 7 && m.transactionId == s.txid) = false →
       Dhcp6.handleUdpReceive s m now ft = s) ∧
    (∀ (s : Dhcp6.ClientState) (opts : List Dhcp6.Dhcp6Opt) (now ft : Nat),
       Dhcp6.findOpt opts 2 = none → Dhcp6.processReplyGuarded s opts now ft = s) ∧
    (∀ (s : Dhcp6.ClientState) (opts : List Dhcp6.Dhcp6Opt) (now ft : Nat)
       (sid : Dhcp6.Dhcp6Opt), Dhcp6.findOpt opts 2 = some sid →
       Dhcp6.serverIdOk sid = false → Dhcp6.processReplyGuarded s opts now ft = s) ∧
    (∀ (s : Dhcp6.ClientState) (opts : List Dhcp6.Dhcp6Opt) (now ft : Nat),
       Dhcp6.findOpt opts 1 = none → Dhcp6.processReplyGuarded s opts now ft = s) ∧
    (∀ (s : Dhcp6.ClientState) (opts : List Dhcp6.Dhcp6Opt) (now ft : Nat)
       (cid : Dhcp6.Dhcp6Opt), Dhcp6.findOpt opts 1 = some cid →
       Dhcp6.clientIdOk s.eui64 cid = false → Dhcp6.processReplyGuarded s opts now ft = s) ∧
    (∀ (s : Dhcp6.ClientState) (opts : List Dhcp6.Dhcp6Opt) (now ft : Nat),
       Dhcp6.findOpt opts 14 = none → Dhcp6.processReplyGuarded s opts now ft = s) ∧
    (∀ (s : Dhcp6.ClientState) (opts : List Dhcp6.Dhcp6Opt) (now ft : Nat),
       Dhcp6.findOpt opts 3 = none → Dhcp6.processReplyGuarded s opts now ft = s) ∧
    (∀ (addr : List Bool) (pl vl : Nat) (ias : List Dhcp6.IdentityAssociation),
       Dhcp6.applyIaAddress addr pl vl ias = none ↔
       ∀ ia ∈ ias, Dhcp6.iaAddrMatches ia addr = false) ∧
    (∀ (addr : List Bool) (pl vl : Nat) (ias ias2 : List Dhcp6.IdentityAssociation)
       (na : Dhcp6.NetifAddr),
       Dhcp6.applyIaAddress addr pl vl ias = some (ias2, na) →
       ∃ pre ia post, ias = pre ++ ia :: post ∧
         (∀ p ∈ pre, Dhcp6.iaAddrMatches p addr = false) ∧
         Dhcp6.iaAddrMatches ia addr = true ∧
         na = { addrBits := addr, pfxLen := ia.netifAddress.pfxLen, preferredFlag := pl != 0,
                validFlag := vl != 0, originDhcp6 := true } ∧
         ias2 = pre ++ ({ ia with
                          netifAddress := na
                          preferredLifetime := pl
                          validLifetime := vl
                          status := Dhcp6.IaStatus.solicitReplied } :: post)) ∧
    (∀ (ias : List Dhcp6.IdentityAssociation) (adds : List Dhcp6.NetifAddr)
       (o : Dhcp6.Dhcp6Opt) (rest : List Dhcp6.Dhcp6Opt), Dhcp6.optCode o = 5 →
       Dhcp6.processIaAddressOption ias o = none →
       Dhcp6.processIaNaSubs ias adds (o :: rest) = (ias, adds, false)) := by
  refine ⟨?_, Dhcp6.guard_noServerId, Dhcp6.guard_badServerId, Dhcp6.guard_noClientId,
          Dhcp6.guard_badClientId, Dhcp6.guard_noRapidCommit, Dhcp6.guard_noIaNa,
          Dhcp6.applyIaAddress_none_iff, Dhcp6.applyIaAddress_some_spec,
          Dhcp6.processIaNaSubs_stop⟩
  intro s m now ft h
  simp [Dhcp6.handleUdpReceive, h]

/-- Witness for C5 (amended) on the sample client: each guard failure is a
no-op at a concrete option list, the IA Address worker fails on the outside
address and leases the sample association on the inside address, and the
IA_NA loop stops on the unmatched option. -/
theorem c5_reply_amended_witness :
    Dhcp6.handleUdpReceive Dhcp6.sampleClient ⟨1, 9, Dhcp6.replyOptsOneAddr⟩ 0 0 =
      Dhcp6.sampleClient ∧
    Dhcp6.processReplyGuarded Dhcp6.sampleClient [] 0 0 = Dhcp6.sampleClient ∧
    Dhcp6.processReplyGuarded Dhcp6.sampleClient [Dhcp6.badServerIdOpt] 0 0 =
      Dhcp6.sampleClient ∧
    Dhcp6.processReplyGuarded Dhcp6.sampleClient [Dhcp6.goodServerIdOpt] 0 0 =
      Dhcp6.sampleClient ∧
    Dhcp6.processReplyGuarded Dhcp6.sampleClient
      [Dhcp6.goodServerIdOpt, Dhcp6.badClientIdOpt] 0 0 = Dhcp6.sampleClient ∧
    Dhcp6.processReplyGuarded Dhcp6.sampleClient
      [Dhcp6.goodServerIdOpt, Dhcp6.goodClientIdOpt] 0 0 = Dhcp6.sampleClient ∧
    Dhcp6.processReplyGuarded Dhcp6.sampleClient
      [Dhcp6.goodServerIdOpt, Dhcp6.goodClientIdOpt, Dhcp6.Dhcp6Opt.rapidCommit] 0 0 =
      Dhcp6.sampleClient ∧
    (Dhcp6.applyIaAddress Dhcp6.outsideAddr 1800 1800 [Dhcp6.sampleIa] = none ↔
      ∀ ia ∈ [Dhcp6.sampleIa], Dhcp6.iaAddrMatches ia Dhcp6.outsideAddr = false) ∧
    (∃ pre ia post, [Dhcp6.sampleIa] = pre ++ ia :: post ∧
       (∀ p ∈ pre, Dhcp6.iaAddrMatches p Dhcp6.insideAddr = false) ∧
       Dhcp6.iaAddrMatches ia Dhcp6.insideAddr = true ∧
       Dhcp6.leasedNetifAddr =
         { addrBits := Dhcp6.insideAddr, pfxLen := ia.netifAddress.pfxLen,
           preferredFlag := 1800 != 0, validFlag := 1800 != 0, originDhcp6 := true } ∧
       [Dhcp6.leasedIa] = pre ++ ({ ia with
                                    netifAddress := Dhcp6.leasedNetifAddr
                                    preferredLifetime := 1800
                                    validLifetime := 1800
                                    status := Dhcp6.IaStatus.solicitReplied } :: post)) ∧
    Dhcp6.processIaNaSubs [Dhcp6.sampleIa] [] [Dhcp6.outsideIaAddrOpt] =
      ([Dhcp6.sampleIa], [], false) := by
  have h := c5_reply_amended
  refine ⟨h.1 Dhcp6.sampleClient ⟨1, 9, Dhcp6.replyOptsOneAddr⟩ 0 0 (by decide),
          h.2.1 Dhcp6.sampleClient [] 0 0 rfl,
          h.2.2.1 Dhcp6.sampleClient [Dhcp6.badServerIdOpt] 0 0 Dhcp6.badServerIdOpt rfl rfl,
          h.2.2.2.1 Dhcp6.sampleClient [Dhcp6.goodServerIdOpt] 0 0 rfl,
          h.2.2.2.2.1 Dhcp6.sampleClient [Dhcp6.goodServerIdOpt, Dhcp6.badClientIdOpt] 0 0
            Dhcp6.badClientIdOpt rfl rfl,
          h.2.2.2.2.2.1 Dhcp6.sampleClient
            [Dhcp6.goodServerIdOpt, Dhcp6.goodClientIdOpt] 0 0 rfl,
          h.2.2.2.2.2.2.1 Dhcp6.sampleClient
            [Dhcp6.goodServerIdOpt, Dhcp6.goodClientIdOpt, Dhcp6.Dhcp6Opt.rapidCommit] 0 0 rfl,
          h.2.2.2.2.2.2.2.1 Dhcp6.outsideAddr 1800 1800 [Dhcp6.sampleIa],
          h.2.2.2.2.2.2.2.2.1 Dhcp6.insideAddr 1800 1800 [Dhcp6.sampleIa] [Dhcp6.leasedIa]
            Dhcp6.leasedNetifAddr (by decide),
          h.2.2.2.2.2.2.2.2.2 [Dhcp6.sampleIa] [] Dhcp6.outsideIaAddrOpt [] rfl (by decide)⟩

/-- Replay of a fully valid Reply carrying one matching IA Address: the
sample association is leased and the address installed on the netif. -/
theorem replayReplyOneAddr :
    (Dhcp6.handleUdpReceive Dhcp6.sampleClient ⟨7, 9, Dhcp6.replyOptsOneAddr⟩ 0 0).ias =
      [Dhcp6.leasedIa] ∧
    (Dhcp6.handleUdpReceive Dhcp6.sampleClient ⟨7, 9, Dhcp6.replyOptsOneAddr⟩ 0 0).netifAdded =
      [Dhcp6.leasedNetifAddr] := by
  exact ⟨by decide, by decide⟩
